import Mathlib

/-!
# trifle CLI: the MCP server loop and its helpers

A shallow embedding of `cli/mcp.go` and of the helpers of `cli/main.go` it
calls.  Go strings are Lean strings, `int64` is an `Int` kept in range by an
explicit wrap, a Go map is an association list read by first match, and the
standard library and the HTTP client are explicit parameters (`Env`).
-/

namespace Trifle

/-! ## JSON text and Go dynamic values -/

/-- The syntax of one JSON value as it stands in the input: a number is kept
as its literal token. -/
inductive Json where
  | null
  | bool (b : Bool)
  | num (lit : String)
  | str (s : String)
  | arr (xs : List Json)
  | obj (kvs : List (String × Json))

/-- The `json.RawMessage` of the params of a frame: `none` is the zero-length
message left by an absent field. The program only ever decodes the params,
and decoding does not depend on white space or on the escape forms of the
text, so the message is kept as the syntax of its JSON value. -/
abbrev RawMessage := Option Json

/-- The `json.RawMessage` of an identifier: the bytes of the JSON value exactly
as they stand in the input (white space inside the value and escape forms
included), `none` for the zero-length message left by an absent field. The
program never decodes an identifier; it copies it and hands it to the
encoder. -/
abbrev RawID := Option String

/-- A finite IEEE-754 binary64 value `(-1)^neg * mant * 2^exp`, in the unique
form with `mant < 2^53` and `-1074 ≤ exp ≤ 971` that the bit pattern gives
(`encoding/json` never produces NaN or an infinity). -/
structure Float64 where
  neg : Bool
  mant : Nat
  exp : Int
deriving DecidableEq, Repr

/-- The values a Go `any` holds in this program: what `encoding/json` decodes
into an `any` (`nil`, `bool`, `float64`, `json.Number`, `string`, `[]any`,
`map[string]any`), the further numeric types `toInt64` switches on, and
struct values (fields in declaration order under their JSON names). -/
inductive GoValue where
  | nil
  | bool (b : Bool)
  | float64 (f : Float64)
  | float32 (f : Float64)
  | int64 (n : Int)
  | int (n : Int)
  | number (lit : String)
  | string (s : String)
  | slice (xs : List GoValue)
  | map (kvs : List (String × GoValue))
  | struct (fields : List (String × GoValue))

/-- A Go `map[string]any`: an association list; a key is read at its first
occurrence. -/
abbrev GoMap := List (String × GoValue)

/-- The comma-ok lookup `m[key]`. -/
def mapGet {α : Type} (m : List (String × α)) (key : String) : Option α :=
  match m with
  | [] => none
  | (k, v) :: rest => if k = key then some v else mapGet rest key

/-- The assignment `m[key] = v`: replaces the entry of `key`, or adds one. -/
def mapSet {α : Type} (m : List (String × α)) (key : String) (v : α) : List (String × α) :=
  match m with
  | [] => [(key, v)]
  | (k, w) :: rest => if k = key then (k, v) :: rest else (k, w) :: mapSet rest key v

/-- The entries `for key, value := range m` visits: every key once, with the
value the map holds for it. -/
def mapRange {α : Type} (m : List (String × α)) : List (String × α) :=
  match m with
  | [] => []
  | (k, v) :: rest => (k, v) :: (mapRange rest).filter (fun e => !decide (e.1 = k))

/-! ## strconv.ParseFloat and the float to int64 conversion -/

/-- The value of a run of decimal digits, continuing from `acc`. -/
def digitsValue (acc : Nat) : List Char → Nat
  | [] => acc
  | c :: cs => digitsValue (acc * 10 + (c.toNat - 48)) cs

/-- Whether every character is an ASCII digit. -/
def allDigits (cs : List Char) : Bool := cs.all Char.isDigit

/-- The parts of a JSON number token: sign, integer digits, fraction digits,
and the decimal exponent. -/
structure NumberParts where
  neg : Bool
  intDigits : List Char
  fracDigits : List Char
  exp : Int

/-- Reads the exponent part after `e` or `E`. -/
def parseExponent (cs : List Char) : Option Int :=
  match cs with
  | '+' :: ds => if ds ≠ [] ∧ allDigits ds then some (digitsValue 0 ds : Nat) else none
  | '-' :: ds => if ds ≠ [] ∧ allDigits ds then some (-(digitsValue 0 ds : Nat)) else none
  | ds => if ds ≠ [] ∧ allDigits ds then some (digitsValue 0 ds : Nat) else none

/-- Splits a JSON number token `-? digits (. digits)? ([eE] [+-]? digits)?`. -/
def parseNumberParts (lit : List Char) : Option NumberParts :=
  let neg := lit.head? = some '-'
  let body := if neg then lit.tail else lit
  let intDigits := body.takeWhile Char.isDigit
  let rest := body.dropWhile Char.isDigit
  if intDigits = [] then none
  else
    let fracDigits := match rest with
      | '.' :: r => r.takeWhile Char.isDigit
      | _ => []
    let afterFrac := match rest with
      | '.' :: r => r.dropWhile Char.isDigit
      | r => r
    let fracOk : Bool := match rest with
      | '.' :: _ => !fracDigits.isEmpty
      | _ => true
    if !fracOk then none
    else match afterFrac with
      | [] => some ⟨neg, intDigits, fracDigits, 0⟩
      | 'e' :: r => (parseExponent r).map fun e => ⟨neg, intDigits, fracDigits, e⟩
      | 'E' :: r => (parseExponent r).map fun e => ⟨neg, intDigits, fracDigits, e⟩
      | _ => none

/-- The number of binary digits of `n`, by halving at most `fuel` times
(`fuel = n` is always enough). -/
def bitLen (fuel n : Nat) : Nat :=
  match fuel with
  | 0 => 0
  | f + 1 => if n = 0 then 0 else bitLen f (n / 2) + 1

/-- Rounds the positive rational `a / b` to the nearest binary64 value, ties to
even: the significand and binary exponent, or `none` when the value is out of
range (at or above `2^1024` after rounding). -/
def roundRatio (a b : Nat) : Option (Nat × Int) :=
  let l : Int := (bitLen a a : Int) - (bitLen b b : Int)
  -- `k` is the floor of the binary logarithm of `a / b`
  let ge (k : Int) : Bool := if 0 ≤ k then decide (b * 2 ^ k.toNat ≤ a) else decide (b ≤ a * 2 ^ (-k).toNat)
  let k : Int := if ge l then l else l - 1
  let e : Int := max (k - 52) (-1074)
  let n : Nat := a * 2 ^ (-e).toNat
  let d : Nat := b * 2 ^ e.toNat
  let q := n / d
  let r := n % d
  let m := if d < 2 * r ∨ (2 * r = d ∧ q % 2 = 1) then q + 1 else q
  let me : Nat × Int := if m = 2 ^ 53 then (2 ^ 52, e + 1) else (m, e)
  if 971 < me.2 then none else some me

/-- The call `strconv.ParseFloat(lit, 64)` on a JSON number token: the nearest
binary64 value, `none` on a range error. -/
def parseFloat64 (lit : String) : Option Float64 :=
  match parseNumberParts lit.data with
  | none => none
  | some p =>
    let n := digitsValue 0 (p.intDigits ++ p.fracDigits)
    let e10 : Int := p.exp - (p.fracDigits.length : Int)
    if n = 0 then some ⟨p.neg, 0, -1074⟩
    else
      let a := n * 10 ^ e10.toNat
      let b := 10 ^ (-e10).toNat
      (roundRatio a b).map fun me => ⟨p.neg, me.1, me.2⟩

/-- Wraps an integer into the `int64` range (two's complement). -/
def wrapInt64 (n : Int) : Int := (n + 2 ^ 63) % 2 ^ 64 - 2 ^ 63

/-- The conversion `int64(v)` of a float: truncation toward zero; outside the
`int64` range the Go specification leaves the result to the implementation,
and the value taken here is the one amd64 gives, `-2^63`. -/
def float64ToInt64 (f : Float64) : Int :=
  let mag : Nat := if 0 ≤ f.exp then f.mant * 2 ^ f.exp.toNat else f.mant / 2 ^ (-f.exp).toNat
  let v : Int := if f.neg then -(mag : Int) else (mag : Int)
  if -(2 : Int) ^ 63 ≤ v ∧ v < 2 ^ 63 then v else -(2 : Int) ^ 63

/-- The call `strconv.ParseInt(lit, 10, 64)` behind `json.Number.Int64`: an
optional sign and decimal digits, in the `int64` range. -/
def parseInt64 (lit : String) : Option Int :=
  let cs := lit.data
  let neg := cs.head? = some '-'
  let body := if cs.head? = some '-' ∨ cs.head? = some '+' then cs.tail else cs
  if body = [] ∨ !allDigits body then none
  else
    let mag : Int := (digitsValue 0 body : Nat)
    let v : Int := if neg then -mag else mag
    if -(2 : Int) ^ 63 ≤ v ∧ v < 2 ^ 63 then some v else none

/-! ## encoding/json: decoding into `any` and into the parameter structs -/

mutual
/-- What `json.Unmarshal` stores in an `any` (no `UseNumber`): a number becomes
a `float64`; `none` when a number is out of the `float64` range. -/
def decodeAny : Json → Option GoValue
  | .null => some .nil
  | .bool b => some (.bool b)
  | .num lit => (parseFloat64 lit).map GoValue.float64
  | .str s => some (.string s)
  | .arr xs => (decodeArr xs).map GoValue.slice
  | .obj kvs => (decodeObj kvs []).map GoValue.map
/-- Decodes the elements of an array in order. -/
def decodeArr : List Json → Option (List GoValue)
  | [] => some []
  | x :: xs =>
    match decodeAny x, decodeArr xs with
    | some v, some vs => some (v :: vs)
    | _, _ => none
/-- Decodes the members of an object into the map `acc`, a later member
replacing an earlier one of the same key. -/
def decodeObj : List (String × Json) → GoMap → Option GoMap
  | [], acc => some acc
  | (k, x) :: rest, acc =>
    match decodeAny x with
    | some v => decodeObj rest (mapSet acc k v)
    | none => none
end

/-- The case folding `encoding/json` applies when it matches an object key to
a struct field: upper-case ASCII letters fold to lower case, and the two
non-ASCII characters in the fold orbit of an ASCII letter, U+017F and U+212A,
fold to `s` and `k`. -/
def foldChar (c : Char) : Char :=
  if c.toNat = 0x17F then 's' else if c.toNat = 0x212A then 'k' else c.toLower

/-- Whether the object key `key` selects the struct field whose JSON name is
the ASCII name `field`. -/
def matchesField (key field : String) : Bool :=
  key.data.map foldChar = field.data.map foldChar

/-- Decoding a JSON value into a `string` field holding `cur`: a string is
stored, `null` leaves the field alone, anything else is a type error. -/
def decodeStringField (cur : String) : Json → Option String
  | .str s => some s
  | .null => some cur
  | _ => none

/-- Decoding a JSON value into a `map[string]any` field holding `cur` (`none`
is the nil map): an object is decoded into the existing map, or into a new one
when the field is nil; `null` sets the field to nil; anything else is a type
error. -/
def decodeMapField (cur : Option GoMap) : Json → Option (Option GoMap)
  | .obj kvs => (decodeObj kvs (cur.getD [])).map some
  | .null => some none
  | _ => none

/-- The struct `toolCallParams`. -/
structure toolCallParams where
  Name : String
  Arguments : Option GoMap

/-- The struct `initializeParams`. -/
structure initializeParams where
  ProtocolVersion : String
  Capabilities : Option GoMap
  ClientInfo : Option GoMap

/-- The struct `resourceReadParams`. -/
structure resourceReadParams where
  URI : String

/-- Decodes the members of an object into a `toolCallParams`, in order. -/
def decodeToolCallFields : List (String × Json) → toolCallParams → Option toolCallParams
  | [], p => some p
  | (k, v) :: rest, p =>
    if matchesField k "name" then
      match decodeStringField p.Name v with
      | some s => decodeToolCallFields rest { p with Name := s }
      | none => none
    else if matchesField k "arguments" then
      match decodeMapField p.Arguments v with
      | some m => decodeToolCallFields rest { p with Arguments := m }
      | none => none
    else decodeToolCallFields rest p

/-- The call `json.Unmarshal(raw, &params)` for a zero `toolCallParams`;
`none` is a decoding error. -/
def unmarshalToolCallParams : Json → Option toolCallParams
  | .null => some ⟨"", none⟩
  | .obj kvs => decodeToolCallFields kvs ⟨"", none⟩
  | _ => none

/-- Decodes the members of an object into an `initializeParams`, in order. -/
def decodeInitializeFields : List (String × Json) → initializeParams → Option initializeParams
  | [], p => some p
  | (k, v) :: rest, p =>
    if matchesField k "protocolVersion" then
      match decodeStringField p.ProtocolVersion v with
      | some s => decodeInitializeFields rest { p with ProtocolVersion := s }
      | none => none
    else if matchesField k "capabilities" then
      match decodeMapField p.Capabilities v with
      | some m => decodeInitializeFields rest { p with Capabilities := m }
      | none => none
    else if matchesField k "clientInfo" then
      match decodeMapField p.ClientInfo v with
      | some m => decodeInitializeFields rest { p with ClientInfo := m }
      | none => none
    else decodeInitializeFields rest p

/-- The call `json.Unmarshal(raw, &params)` for a zero `initializeParams`. -/
def unmarshalInitializeParams : Json → Option initializeParams
  | .null => some ⟨"", none, none⟩
  | .obj kvs => decodeInitializeFields kvs ⟨"", none, none⟩
  | _ => none

/-- Decodes the members of an object into a `resourceReadParams`, in order. -/
def decodeResourceReadFields : List (String × Json) → resourceReadParams → Option resourceReadParams
  | [], p => some p
  | (k, v) :: rest, p =>
    if matchesField k "uri" then
      match decodeStringField p.URI v with
      | some s => decodeResourceReadFields rest { p with URI := s }
      | none => none
    else decodeResourceReadFields rest p

/-- The call `json.Unmarshal(raw, &params)` for a zero `resourceReadParams`. -/
def unmarshalResourceReadParams : Json → Option resourceReadParams
  | .null => some ⟨""⟩
  | .obj kvs => decodeResourceReadFields kvs ⟨""⟩
  | _ => none

/-! ## strings.TrimSpace -/

/-- The predicate `unicode.IsSpace`. -/
def isSpace (c : Char) : Bool :=
  let n := c.toNat
  (9 ≤ n ∧ n ≤ 13) ∨ n = 0x20 ∨ n = 0x85 ∨ n = 0xA0 ∨ n = 0x1680 ∨ (0x2000 ≤ n ∧ n ≤ 0x200A)
    ∨ n = 0x2028 ∨ n = 0x2029 ∨ n = 0x202F ∨ n = 0x205F ∨ n = 0x3000

/-- The function `strings.TrimSpace`: drops the leading and trailing white
space. -/
def trimSpace (s : String) : String :=
  ⟨((s.data.dropWhile isSpace).reverse.dropWhile isSpace).reverse⟩

/-! ## The protocol structs of `mcp.go` and the response structs of `main.go` -/

/-- The struct `rpcRequest`: one decoded frame. -/
structure rpcRequest where
  JSONRPC : String
  ID : RawID
  Method : String
  Params : RawMessage

/-- The struct `rpcError`; `Data` is an `any`, `none` when nil. -/
structure rpcError where
  Code : Int
  Message : String
  Data : Option GoValue

/-- A non-nil Go `error`: a `*rpcError`, or an error of another type, of which
only its message is observed. -/
inductive GoError where
  | rpc (e : rpcError)
  | other (msg : String)

/-- The method `(*rpcError).Error` on a non-nil receiver. -/
def rpcError.Error (e : rpcError) : String :=
  if e.Message = "" then "rpc error " ++ toString e.Code else e.Message

/-- The method `Error()` of an error value. -/
def GoError.Error : GoError → String
  | .rpc e => e.Error
  | .other msg => msg

/-- The struct `contentItem`; `Type_` is its field `Type`. -/
structure contentItem where
  Type_ : String
  Text : String

/-- The struct `toolResult`. -/
structure toolResult where
  Content : List contentItem
  IsError : Bool

/-- The struct `resourceReadResult`. -/
structure resourceReadResult where
  Contents : List GoMap

/-- What the `Result any` of a response holds when it is not nil: a
`map[string]any`, a `toolResult` or a `resourceReadResult`. -/
inductive ResultValue where
  | object (m : GoMap)
  | tool (r : toolResult)
  | resource (r : resourceReadResult)

/-- The struct `rpcResponse`: one envelope; a nil `Result` or `Error` is
`none`. -/
structure rpcResponse where
  JSONRPC : String
  ID : RawID
  Result : Option ResultValue
  Error : Option rpcError

/-- The struct `seriesData`. -/
structure seriesData where
  At : List String
  Values : List GoMap

/-- The struct `metricsResponse`. -/
structure metricsResponse where
  Data : seriesData

/-- The struct `keysEntry`; `Observations` is an `int64`. -/
structure keysEntry where
  MetricKey : String
  Observations : Int
deriving DecidableEq

/-- The struct `sourceConfig`. -/
structure sourceConfig where
  DefaultGranularity : String
  AvailableGranularities : List String

/-- The struct `sourceResponse`. -/
structure sourceResponse where
  Data : sourceConfig

/-- The parts of a `url.URL` that `readResource` reads; `Query` is the decoded
query string, in order. -/
structure URL where
  Scheme : String
  Host : String
  Path : String
  Query : List (String × String)

/-! ## The world outside the program -/

/-- A request sent to the analytics backend through `api.Client`. -/
inductive BackendCall where
  | GetMetrics (params : List (String × String))
  | GetSource
  | PostMetrics (payload : GoMap)
  | GetTransponders
  | QueryMetrics (payload : GoMap)

/-- The standard-library functions and the backend client the program calls,
over a state `σ` of the outside world (clock, backend, output stream).  A
backend method answers with the decoded response or with an error message. -/
structure Env (σ : Type) where
  /-- The call `fmt.Sprint(v)`. -/
  Sprint : GoValue → String
  /-- Whether `time.Parse(time.RFC3339Nano, value)` succeeds. -/
  TimeParse : String → Bool
  /-- The call `t.Format(time.RFC3339)` of a UTC instant given in Unix nanoseconds. -/
  FormatRFC3339 : Int → String
  /-- The call `url.Parse(uri)`. -/
  URLParse : String → Except String URL
  /-- The call `json.MarshalIndent(payload, "", "  ")`. -/
  MarshalIndent : GoValue → Except String String
  /-- The call `time.Now().UTC()`, in Unix nanoseconds. -/
  Now : σ → Int × σ
  /-- The call `encoder.Encode(response)`: `none` when the write succeeds. -/
  Encode : rpcResponse → σ → Option String × σ
  /-- The method `client.GetMetrics`. -/
  GetMetrics : List (String × String) → σ → Except String metricsResponse × σ
  /-- The method `client.GetSource` decoding into a `sourceResponse`. -/
  GetSourceConfig : σ → Except String sourceResponse × σ
  /-- The method `client.GetSource` decoding into a `map[string]any`. -/
  GetSource : σ → Except String GoMap × σ
  /-- The method `client.PostMetrics`. -/
  PostMetrics : GoMap → σ → Except String GoMap × σ
  /-- The method `client.GetTransponders`. -/
  GetTransponders : σ → Except String GoMap × σ
  /-- The method `client.QueryMetrics`. -/
  QueryMetrics : GoMap → σ → Except String GoMap × σ

/-- The state a handler runs in: the outside world and the backend requests
sent so far (oldest first). -/
structure World (σ : Type) where
  st : σ
  calls : List BackendCall

/-- The state of a session: the world, and the envelopes handed to
`encoder.Encode` so far (oldest first). -/
structure Session (σ : Type) where
  world : World σ
  out : List rpcResponse

/-! ## `main.go`: the helpers the server shares with the command line -/

/-- The variable `version`. -/
def version : String := "0.1.0-dev"

/-- The function `toInt64`. -/
def toInt64 : GoValue → Int
  | .float64 v => float64ToInt64 v
  | .float32 v => float64ToInt64 v
  | .int64 v => v
  | .int v => v
  | .number v => (parseInt64 v).getD 0
  | _ => 0

/-- The inner loop of `summarizeKeys`: `counts[key] += toInt64(value)` for the
entries of one `keys` mapping, in `int64` arithmetic. -/
def addCounts (counts : List (String × Int)) : List (String × GoValue) → List (String × Int)
  | [] => counts
  | (key, value) :: rest =>
    addCounts (mapSet counts key (wrapInt64 ((mapGet counts key).getD 0 + toInt64 value))) rest

/-- The outer loop of `summarizeKeys` over the rows: a row without a `keys`
entry, or whose `keys` is not a `map[string]interface{}`, is skipped. -/
def countRows (counts : List (String × Int)) : List GoMap → List (String × Int)
  | [] => counts
  | row :: rest =>
    match mapGet row "keys" with
    | some (.map keysMap) => countRows (addCounts counts (mapRange keysMap)) rest
    | _ => countRows counts rest

/-- Lexicographic `<` on character sequences by code point: the order `<` of
Go strings (byte-wise on UTF-8, which keeps the order of code points). -/
def charsLt : List Char → List Char → Bool
  | _, [] => false
  | [], _ :: _ => true
  | a :: as, b :: bs =>
    if a.toNat < b.toNat then true else if a.toNat = b.toNat then charsLt as bs else false

/-- The comparison `a <= b` of Go strings. -/
def strLe (a b : String) : Bool := !charsLt b.data a.data

/-- The call `sort.Strings`: the keys in ascending order. -/
def sortStrings (keys : List String) : List String :=
  keys.insertionSort (fun a b => strLe a b = true)

/-- The function `summarizeKeys`. -/
def summarizeKeys (values : List GoMap) : List keysEntry :=
  let counts := countRows [] values
  let keys := sortStrings ((mapRange counts).map Prod.fst)
  keys.map fun key => ⟨key, (mapGet counts key).getD 0⟩

/-- The function `validateTimestamp`: `none` is the nil error. -/
def validateTimestamp {σ : Type} (env : Env σ) (label value : String) : Option String :=
  if env.TimeParse value then none
  else some (label ++ " must be RFC3339 (e.g. 2024-01-02T15:04:05Z or 2024-01-02T15:04:05+00:00)")

/-- The duration `24 * time.Hour`, in nanoseconds. -/
def day : Int := 24 * 3600 * 1000000000

/-- The function `resolveTimeRange`. -/
def resolveTimeRange {σ : Type} (env : Env σ) (from_ to_ : String) (w : World σ) :
    Except String (String × String) × World σ :=
  let from_ := trimSpace from_
  let to_ := trimSpace to_
  if from_ = "" ∧ to_ = "" then
    let now := env.Now w.st
    (.ok (env.FormatRFC3339 (now.1 - day), env.FormatRFC3339 now.1), { w with st := now.2 })
  else if from_ = "" ∨ to_ = "" then
    (.error "from and to are required together (RFC3339, e.g. 2024-01-02T15:04:05Z)", w)
  else
    match validateTimestamp env "from" from_ with
    | some err => (.error err, w)
    | none =>
      match validateTimestamp env "to" to_ with
      | some err => (.error err, w)
      | none => (.ok (from_, to_), w)

/-- The function `resolveGranularity`. -/
def resolveGranularity {σ : Type} (env : Env σ) (w : World σ) : Except String String × World σ :=
  let r := env.GetSourceConfig w.st
  let w := { w with st := r.2, calls := w.calls ++ [BackendCall.GetSource] }
  match r.1 with
  | .error err => (.error err, w)
  | .ok response =>
    if response.Data.DefaultGranularity ≠ "" then (.ok response.Data.DefaultGranularity, w)
    else
      let available := response.Data.AvailableGranularities
      match ["1h", "1d"].find? (fun candidate => available.any fun value => value = candidate) with
      | some candidate => (.ok candidate, w)
      | none =>
        match available with
        | first :: _ => (.ok first, w)
        | [] => (.ok "1h", w)

/-- The function `queryMetrics`. -/
def queryMetrics {σ : Type} (env : Env σ) (payload : GoMap) (w : World σ) :
    Except String GoMap × World σ :=
  let r := env.QueryMetrics payload w.st
  let w := { w with st := r.2, calls := w.calls ++ [BackendCall.QueryMetrics payload] }
  match r.1 with
  | .error err => (.error err, w)
  | .ok response =>
    match mapGet response "data" with
    | none => (.error "missing data in response", w)
    | some (.map data) => (.ok data, w)
    | some _ => (.error "unexpected data shape", w)

/-! ## `mcp.go`: argument coercion and result shaping

A tool or resource failure is a Go error of another type than `*rpcError`; it
is kept as its message, the only thing the program reads of it. -/

/-- The function `getStringArg`. -/
def getStringArg {σ : Type} (env : Env σ) (args : GoMap) (key : String) : String :=
  match mapGet args key with
  | none => ""
  | some .nil => ""
  | some (.string v) => v
  | some (.number v) => v
  | some v => env.Sprint v

/-- The function `toolErrorResult`, on the message of the error. -/
def toolErrorResult (err : String) : toolResult :=
  { Content := [{ Type_ := "text", Text := err }], IsError := true }

/-- The function `toolResultFromJSON`. -/
def toolResultFromJSON {σ : Type} (env : Env σ) (payload : GoValue) : toolResult :=
  match env.MarshalIndent payload with
  | .error err => toolErrorResult err
  | .ok encoded => { Content := [{ Type_ := "text", Text := encoded }], IsError := false }

/-- The function `resourceResult`. -/
def resourceResult {σ : Type} (env : Env σ) (uri : String) (payload : GoValue) :
    Except String resourceReadResult :=
  match env.MarshalIndent payload with
  | .error err => .error err
  | .ok encoded =>
    .ok { Contents := [[("uri", .string uri), ("mimeType", .string "application/json"),
      ("text", .string encoded)]] }

/-- The function `rpcResult`. -/
def rpcResult (id : RawID) (result : ResultValue) : rpcResponse :=
  { JSONRPC := "2.0", ID := id, Result := some result, Error := none }

/-- The function `invalidParamsError`. -/
def invalidParamsError (message : String) : rpcError :=
  { Code := -32602, Message := message, Data := none }

/-- The function `methodNotFoundError`. -/
def methodNotFoundError (message : String) : rpcError :=
  { Code := -32601, Message := message, Data := none }

/-- A `map[string]string` as a value: the map of its strings. -/
def stringMap (m : List (String × String)) : GoValue :=
  .map (m.map fun e => (e.1, GoValue.string e.2))

/-- A `keysEntry` as a value. -/
def keysEntry.toValue (e : keysEntry) : GoValue :=
  .struct [("metric_key", .string e.MetricKey), ("observations", .int64 e.Observations)]

/-- A `seriesData` as a value. -/
def seriesData.toValue (d : seriesData) : GoValue :=
  .struct [("at", .slice (d.At.map GoValue.string)), ("values", .slice (d.Values.map GoValue.map))]

/-! ## `mcp.go`: the tools -/

/-- The granularity step shared by the payload builders: the `granularity`
argument as it is when it is not empty, `resolveGranularity` otherwise. -/
def argGranularity {σ : Type} (env : Env σ) (args : GoMap) (w : World σ) :
    Except String String × World σ :=
  if getStringArg env args "granularity" = "" then resolveGranularity env w
  else (.ok (getStringArg env args "granularity"), w)

/-- The function `listMetricsPayload`. -/
def listMetricsPayload {σ : Type} (env : Env σ) (args : GoMap) (w : World σ) :
    Except String GoMap × World σ :=
  let r := resolveTimeRange env (getStringArg env args "from") (getStringArg env args "to") w
  match r.1 with
  | .error err => (.error err, r.2)
  | .ok (from_, to_) =>
    let g := argGranularity env args r.2
    match g.1 with
    | .error err => (.error err, g.2)
    | .ok granularity =>
      let params := [("from", from_), ("to", to_), ("granularity", granularity)]
      let m := env.GetMetrics params g.2.st
      let w := { g.2 with st := m.2, calls := g.2.calls ++ [BackendCall.GetMetrics params] }
      match m.1 with
      | .error err => (.error err, w)
      | .ok response =>
        let entries := summarizeKeys response.Data.Values
        (.ok [("status", .string "ok"),
          ("timeframe", stringMap [("from", from_), ("to", to_), ("granularity", granularity)]),
          ("paths", .slice (entries.map keysEntry.toValue)),
          ("total_paths", .int entries.length)], w)

/-- The function `fetchSeriesPayload`. -/
def fetchSeriesPayload {σ : Type} (env : Env σ) (args : GoMap) (w : World σ) :
    Except String GoMap × World σ :=
  let r := resolveTimeRange env (getStringArg env args "from") (getStringArg env args "to") w
  match r.1 with
  | .error err => (.error err, r.2)
  | .ok (from_, to_) =>
    let g := argGranularity env args r.2
    match g.1 with
    | .error err => (.error err, g.2)
    | .ok granularity =>
      let key := trimSpace (getStringArg env args "key")
      let params := [("from", from_), ("to", to_), ("granularity", granularity)]
      let params := if key ≠ "" then mapSet params "key" key else params
      let m := env.GetMetrics params g.2.st
      let w := { g.2 with st := m.2, calls := g.2.calls ++ [BackendCall.GetMetrics params] }
      match m.1 with
      | .error err => (.error err, w)
      | .ok response =>
        let usedKey := if key = "" then "__system__key__" else key
        (.ok [("status", .string "ok"),
          ("metric_key", .string usedKey),
          ("timeframe", stringMap [("from", from_), ("to", to_), ("granularity", granularity)]),
          ("data", response.Data.toValue)], w)

/-- The function `queryPayload`. -/
def queryPayload {σ : Type} (env : Env σ) (mode : String) (args : GoMap) (w : World σ) :
    Except String GoMap × World σ :=
  let key := trimSpace (getStringArg env args "key")
  if key = "" then (.error "key is required", w)
  else
    let valuePath := trimSpace (getStringArg env args "value_path")
    if valuePath = "" then (.error "value_path is required", w)
    else
      let r := resolveTimeRange env (getStringArg env args "from") (getStringArg env args "to") w
      match r.1 with
      | .error err => (.error err, r.2)
      | .ok (from_, to_) =>
        let g := argGranularity env args r.2
        match g.1 with
        | .error err => (.error err, g.2)
        | .ok granularity =>
          let payload : GoMap := [("mode", .string mode), ("key", .string key),
            ("value_path", .string valuePath), ("from", .string from_), ("to", .string to_),
            ("granularity", .string granularity)]
          let aggregator := trimSpace (getStringArg env args "aggregator")
          if mode = "aggregate" ∧ aggregator = "" then (.error "aggregator is required", g.2)
          else
            let payload := if mode = "aggregate" then mapSet payload "aggregator" (.string aggregator)
              else payload
            let payload := match mapGet args "slices" with
              | some slicesValue => mapSet payload "slices" slicesValue
              | none => payload
            queryMetrics env payload g.2

/-- The function `writeMetricPayload`. -/
def writeMetricPayload {σ : Type} (env : Env σ) (args : GoMap) (w : World σ) :
    Except String GoMap × World σ :=
  let key := trimSpace (getStringArg env args "key")
  if key = "" then (.error "key is required", w)
  else
    match mapGet args "values" with
    | none => (.error "values is required", w)
    | some values =>
      let at_ := trimSpace (getStringArg env args "at")
      let now := env.Now w.st
      let t : String × World σ := if at_ = "" then (env.FormatRFC3339 now.1, { w with st := now.2 })
        else (at_, w)
      let payload : GoMap := [("key", .string key), ("at", .string t.1), ("values", values)]
      let p := env.PostMetrics payload t.2.st
      let w := { t.2 with st := p.2, calls := t.2.calls ++ [BackendCall.PostMetrics payload] }
      match p.1 with
      | .error err => (.error err, w)
      | .ok response => (.ok response, w)

/-- The function `listTranspondersPayload`. -/
def listTranspondersPayload {σ : Type} (env : Env σ) (w : World σ) :
    Except String GoMap × World σ :=
  let t := env.GetTransponders w.st
  let w := { w with st := t.2, calls := w.calls ++ [BackendCall.GetTransponders] }
  match t.1 with
  | .error err => (.error err, w)
  | .ok response => (.ok response, w)

/-- The common tail of the cases of `executeTool`: an error is passed on, a
payload goes through `toolResultFromJSON`. -/
def toolOutcome {σ : Type} (env : Env σ) (r : Except String GoMap × World σ) :
    Except String toolResult × World σ :=
  match r.1 with
  | .error err => (.error err, r.2)
  | .ok payload => (.ok (toolResultFromJSON env (.map payload)), r.2)

/-- The function `executeTool`. -/
def executeTool {σ : Type} (env : Env σ) (name : String) (args : GoMap) (w : World σ) :
    Except String toolResult × World σ :=
  if name = "list_metrics" then toolOutcome env (listMetricsPayload env args w)
  else if name = "fetch_series" then toolOutcome env (fetchSeriesPayload env args w)
  else if name = "aggregate_series" then toolOutcome env (queryPayload env "aggregate" args w)
  else if name = "format_timeline" then toolOutcome env (queryPayload env "timeline" args w)
  else if name = "format_category" then toolOutcome env (queryPayload env "category" args w)
  else if name = "write_metric" then toolOutcome env (writeMetricPayload env args w)
  else if name = "list_transponders" then toolOutcome env (listTranspondersPayload env w)
  else (.error ("unknown tool: " ++ name), w)

/-! ## `mcp.go`: the resources -/

/-- The call `strings.TrimPrefix(path, "/")`. -/
def trimSlash (path : String) : String :=
  match path.data with
  | '/' :: rest => ⟨rest⟩
  | _ => path

/-- The call `query.Get(key)`: the first value of the key, or the empty
string. -/
def queryGet (query : List (String × String)) (key : String) : String :=
  (mapGet query key).getD ""

/-- The common tail of the cases of `readResource`: an error is passed on, a
payload goes through `resourceResult`. -/
def resourceOutcome {σ : Type} (env : Env σ) (uri : String) (r : Except String GoMap × World σ) :
    Except String resourceReadResult × World σ :=
  match r.1 with
  | .error err => (.error err, r.2)
  | .ok payload => (resourceResult env uri (.map payload), r.2)

/-- The function `readResource`. -/
def readResource {σ : Type} (env : Env σ) (uri : String) (w : World σ) :
    Except String resourceReadResult × World σ :=
  match env.URLParse uri with
  | .error err => (.error err, w)
  | .ok parsed =>
    if parsed.Scheme ≠ "trifle" then (.error ("unsupported scheme: " ++ parsed.Scheme), w)
    else if parsed.Host = "source" then
      let r := env.GetSource w.st
      resourceOutcome env uri (r.1, { w with st := r.2, calls := w.calls ++ [BackendCall.GetSource] })
    else if parsed.Host = "transponders" then
      let r := env.GetTransponders w.st
      resourceOutcome env uri
        (r.1, { w with st := r.2, calls := w.calls ++ [BackendCall.GetTransponders] })
    else if parsed.Host = "metrics" then
      let key := trimSlash parsed.Path
      let args : GoMap := [("from", .string (queryGet parsed.Query "from")),
        ("to", .string (queryGet parsed.Query "to")),
        ("granularity", .string (queryGet parsed.Query "granularity"))]
      if key ≠ "" then
        resourceOutcome env uri (fetchSeriesPayload env (mapSet args "key" (.string key)) w)
      else resourceOutcome env uri (listMetricsPayload env args w)
    else (.error ("unknown resource: " ++ parsed.Host), w)

/-! ## `mcp.go`: the catalogs -/

/-- The struct `resourceDescriptor`. -/
structure resourceDescriptor where
  URI : String
  Name : String
  Description : String
  MimeType : String

/-- The struct `toolDefinition`. -/
structure toolDefinition where
  Name : String
  Description : String
  InputSchema : GoMap

/-- The function `resourceList`. -/
def resourceList : List resourceDescriptor :=
  [ { URI := "trifle://source", Name := "Source configuration",
      Description := "Active analytics source configuration (defaults and granularities).",
      MimeType := "application/json" },
    { URI := "trifle://metrics", Name := "Metrics listing",
      Description := "Available metrics from __system__key__ (use ?from&to&granularity).",
      MimeType := "application/json" },
    { URI := "trifle://metrics/{key}", Name := "Metric series",
      Description := "Raw series for a metric key (use ?from&to&granularity).",
      MimeType := "application/json" },
    { URI := "trifle://transponders", Name := "Transponders",
      Description := "List transponders for the active source.",
      MimeType := "application/json" } ]

/-- The schema `map[string]any{"type": t}` of one property. -/
def typed (t : String) : GoValue := .map [("type", .string t)]

/-- A `[]string` as a value. -/
def stringSlice (xs : List String) : GoValue := .slice (xs.map GoValue.string)

/-- The schema of the `slices` property. -/
def slicesSchema : GoValue := .map [("type", .string "integer"), ("minimum", .int 1)]

/-- The function `toolDefinitions`. -/
def toolDefinitions : List toolDefinition :=
  [ { Name := "list_metrics",
      Description := "List available metric keys from the system series.",
      InputSchema := [("type", .string "object"),
        ("properties", .map [("from", typed "string"), ("to", typed "string"),
          ("granularity", typed "string")])] },
    { Name := "fetch_series",
      Description := "Fetch raw series data for a metric key.",
      InputSchema := [("type", .string "object"),
        ("properties", .map [("key", typed "string"), ("from", typed "string"),
          ("to", typed "string"), ("granularity", typed "string")])] },
    { Name := "aggregate_series",
      Description := "Aggregate a metric series (sum, mean, min, max).",
      InputSchema := [("type", .string "object"),
        ("properties", .map [("key", typed "string"), ("value_path", typed "string"),
          ("aggregator", .map [("type", .string "string"),
            ("enum", stringSlice ["sum", "mean", "min", "max"])]),
          ("from", typed "string"), ("to", typed "string"), ("granularity", typed "string"),
          ("slices", slicesSchema)]),
        ("required", stringSlice ["key", "value_path", "aggregator"])] },
    { Name := "format_timeline",
      Description := "Format a metric series into timeline entries.",
      InputSchema := [("type", .string "object"),
        ("properties", .map [("key", typed "string"), ("value_path", typed "string"),
          ("from", typed "string"), ("to", typed "string"), ("granularity", typed "string"),
          ("slices", slicesSchema)]),
        ("required", stringSlice ["key", "value_path"])] },
    { Name := "format_category",
      Description := "Format a metric series into categorical totals.",
      InputSchema := [("type", .string "object"),
        ("properties", .map [("key", typed "string"), ("value_path", typed "string"),
          ("from", typed "string"), ("to", typed "string"), ("granularity", typed "string"),
          ("slices", slicesSchema)]),
        ("required", stringSlice ["key", "value_path"])] },
    { Name := "write_metric",
      Description := "Write a metric event.",
      InputSchema := [("type", .string "object"),
        ("properties", .map [("key", typed "string"), ("at", typed "string"),
          ("values", .map [("type",
            stringSlice ["object", "array", "string", "number", "boolean", "null"])])]),
        ("required", stringSlice ["key", "values"])] },
    { Name := "list_transponders",
      Description := "List transponders for the active source.",
      InputSchema := [("type", .string "object"), ("properties", .map [])] } ]

/-- A `resourceDescriptor` as a value. -/
def resourceDescriptor.toValue (d : resourceDescriptor) : GoValue :=
  .struct [("uri", .string d.URI), ("name", .string d.Name), ("description", .string d.Description),
    ("mimeType", .string d.MimeType)]

/-- A `toolDefinition` as a value. -/
def toolDefinition.toValue (d : toolDefinition) : GoValue :=
  .struct [("name", .string d.Name), ("description", .string d.Description),
    ("inputSchema", .map d.InputSchema)]

/-! ## `mcp.go`: dispatch and the session loop -/

/-- The constant `mcpProtocolVersion`. -/
def mcpProtocolVersion : String := "2024-11-05"

/-- What a handler returns, a `(*rpcResponse, error)` pair with `none` for
nil, together with the world it leaves. -/
abbrev Handled (σ : Type) := (Option rpcResponse × Option GoError) × World σ

/-- The function `handleToolCall`. -/
def handleToolCall {σ : Type} (env : Env σ) (req : rpcRequest) (w : World σ) : Handled σ :=
  match req.Params with
  | none => ((none, some (.rpc (invalidParamsError "missing params"))), w)
  | some raw =>
    match unmarshalToolCallParams raw with
    | none => ((none, some (.rpc (invalidParamsError "invalid tool call params"))), w)
    | some params =>
      if params.Name = "" then ((none, some (.rpc (invalidParamsError "tool name required"))), w)
      else
        let r := executeTool env params.Name (params.Arguments.getD []) w
        match r.1 with
        | .error err => ((some (rpcResult req.ID (.tool (toolErrorResult err))), none), r.2)
        | .ok result => ((some (rpcResult req.ID (.tool result)), none), r.2)

/-- The function `handleResourceRead`. -/
def handleResourceRead {σ : Type} (env : Env σ) (req : rpcRequest) (w : World σ) : Handled σ :=
  match req.Params with
  | none => ((none, some (.rpc (invalidParamsError "missing params"))), w)
  | some raw =>
    match unmarshalResourceReadParams raw with
    | none => ((none, some (.rpc (invalidParamsError "invalid resource params"))), w)
    | some params =>
      if params.URI = "" then ((none, some (.rpc (invalidParamsError "uri required"))), w)
      else
        let r := readResource env params.URI w
        match r.1 with
        | .error err => ((some (rpcResult req.ID (.tool (toolErrorResult err))), none), r.2)
        | .ok payload => ((some (rpcResult req.ID (.resource payload)), none), r.2)

/-- The `initialize` case of `handleMCPRequest`. -/
def handleInitialize {σ : Type} (req : rpcRequest) (w : World σ) : Handled σ :=
  let decoded : Option initializeParams :=
    match req.Params with
    | none => some ⟨"", none, none⟩
    | some raw => unmarshalInitializeParams raw
  match decoded with
  | none => ((none, some (.rpc (invalidParamsError "invalid initialize params"))), w)
  | some params =>
    let protocol := if params.ProtocolVersion = "" then mcpProtocolVersion else params.ProtocolVersion
    let result : GoMap := [("protocolVersion", .string protocol),
      ("capabilities", .map [("tools", .map [("listChanged", .bool false)]),
        ("resources", .map [("listChanged", .bool false)])]),
      ("serverInfo", .map [("name", .string "trifle-cli"), ("version", .string version)])]
    ((some (rpcResult req.ID (.object result)), none), w)

/-- The function `handleMCPRequest`. -/
def handleMCPRequest {σ : Type} (env : Env σ) (req : rpcRequest) (w : World σ) : Handled σ :=
  if req.Method = "initialize" then handleInitialize req w
  else if req.Method = "initialized" then ((none, none), w)
  else if req.Method = "shutdown" then ((some (rpcResult req.ID (.object [])), none), w)
  else if req.Method = "exit" then ((some (rpcResult req.ID (.object [])), none), w)
  else if req.Method = "tools/list" then
    ((some (rpcResult req.ID
      (.object [("tools", .slice (toolDefinitions.map toolDefinition.toValue))])), none), w)
  else if req.Method = "tools/call" then handleToolCall env req w
  else if req.Method = "resources/list" then
    ((some (rpcResult req.ID
      (.object [("resources", .slice (resourceList.map resourceDescriptor.toValue))])), none), w)
  else if req.Method = "resources/read" then handleResourceRead env req w
  else ((none, some (.rpc (methodNotFoundError ("method not found: " ++ req.Method)))), w)

/-- How one pass of the loop of `serveMCP` ends: with the next pass, or with
the return of `serveMCP` (`none` is the nil error). -/
inductive Flow where
  | next
  | stop (err : Option String)

/-- The end of a pass of the loop: the response goes to `encoder.Encode`; a
write error ends the session, and so does the method `exit`. -/
def writeResponse {σ : Type} (env : Env σ) (req : rpcRequest) (response : rpcResponse)
    (w : World σ) (out : List rpcResponse) : Flow × Session σ :=
  let e := env.Encode response w.st
  let s : Session σ := { world := { w with st := e.2 }, out := out ++ [response] }
  match e.1 with
  | some err => (.stop (some err), s)
  | none => if req.Method = "exit" then (.stop none, s) else (.next, s)

/-- One pass of the loop of `serveMCP` on a decoded frame. -/
def serveStep {σ : Type} (env : Env σ) (req : rpcRequest) (s : Session σ) : Flow × Session σ :=
  if req.JSONRPC = "" then (.next, s)
  else
    let h := handleMCPRequest env req s.world
    match h.1.2 with
    | some err =>
      if req.ID.isNone then (.next, { s with world := h.2 })
      else
        let rpcErr : rpcError := match err with
          | .rpc e => e
          | .other msg => { Code := -32603, Message := msg, Data := none }
        writeResponse env req { JSONRPC := "2.0", ID := req.ID, Result := none, Error := some rpcErr }
          h.2 s.out
    | none =>
      match h.1.1 with
      | none => (.next, { s with world := h.2 })
      | some response => writeResponse env req response h.2 s.out

/-- What one `decoder.Decode(&req)` yields before the end of the input: a
frame, or a decoding error. -/
inductive Decoded where
  | frame (req : rpcRequest)
  | failure (err : String)

/-- The function `serveMCP` on the input `input` followed by the end of the
stream: the error it returns (`none` is nil) and the session it leaves. -/
def serveMCP {σ : Type} (env : Env σ) : List Decoded → Session σ → Option String × Session σ
  | [], s => (none, s)
  | .failure err :: _, s => (some err, s)
  | .frame req :: rest, s =>
    match serveStep env req s with
    | (.next, s) => serveMCP env rest s
    | (.stop err, s) => (err, s)

/-- The envelopes one pass of the loop hands to the encoder. -/
def written {σ : Type} (env : Env σ) (req : rpcRequest) (s : Session σ) : List rpcResponse :=
  (serveStep env req s).2.out.drop s.out.length

/-- The backend requests one pass of the loop sends. -/
def sent {σ : Type} (env : Env σ) (req : rpcRequest) (s : Session σ) : List BackendCall :=
  (serveStep env req s).2.world.calls.drop s.world.calls.length

/-- The three ways a handler returns: a protocol error that leaves the world
as it was, a success envelope built by `rpcResult` on the identifier of the
request, or nothing at all. -/
inductive Outcome {σ : Type} (req : rpcRequest) (w : World σ) : Handled σ → Prop where
  | protocolError (e : rpcError) : Outcome req w ((none, some (.rpc e)), w)
  | result (r : ResultValue) (w' : World σ) : Outcome req w ((some (rpcResult req.ID r), none), w')
  | silent : Outcome req w ((none, none), w)

/-- The params with which `handleToolCall` does not reach `executeTool`:
absent, not decodable as `toolCallParams`, or with an empty tool name. -/
def toolCallParamsRejected (p : RawMessage) : Prop :=
  p = none ∨ ∃ raw, p = some raw ∧
    (unmarshalToolCallParams raw = none ∨
      ∃ q, unmarshalToolCallParams raw = some q ∧ q.Name = "")

/-- The params with which `handleResourceRead` does not reach `readResource`:
absent, not decodable as `resourceReadParams`, or with an empty URI. -/
def resourceReadParamsRejected (p : RawMessage) : Prop :=
  p = none ∨ ∃ raw, p = some raw ∧
    (unmarshalResourceReadParams raw = none ∨
      ∃ q, unmarshalResourceReadParams raw = some q ∧ q.URI = "")

/-- The eight method names `handleMCPRequest` switches on. -/
def knownMethods : List String :=
  ["initialize", "initialized", "shutdown", "exit", "tools/list", "tools/call",
    "resources/list", "resources/read"]

/-- The comparison `a < b` of Go strings. -/
def strLt (a b : String) : Bool := charsLt a.data b.data

/-- The value the `keys` mapping of a row holds for `key`: `none` when the row
has no `keys` entry, when that entry is not a mapping, or when the mapping
does not hold the key. -/
def keyEntry (row : GoMap) (key : String) : Option GoValue :=
  match mapGet row "keys" with
  | some (.map keysMap) => mapGet keysMap key
  | _ => none

/-- The count of `key` in one row: `toInt64` of its entry, `0` without one. -/
def rowCount (row : GoMap) (key : String) : Int :=
  match keyEntry row key with
  | some value => toInt64 value
  | none => 0

/-- The sum over all rows of the count of `key`, as an integer. -/
def exactTotal (rows : List GoMap) (key : String) : Int :=
  (rows.map fun row => rowCount row key).sum

/-- The count a `counts` map holds for a key, `0` for a key it does not hold. -/
def countOf (counts : List (String × Int)) (key : String) : Int :=
  (mapGet counts key).getD 0

/-- The sum of the converted values of the entries of `key` in a list of
entries. -/
def tally (entries : List (String × GoValue)) (key : String) : Int :=
  ((entries.filter fun e => decide (e.1 = key)).map fun e => toInt64 e.2).sum

/-- Every count a map holds is in the `int64` range. -/
def Wrapped (counts : List (String × Int)) : Prop :=
  ∀ key, wrapInt64 (countOf counts key) = countOf counts key

/-- The keys `summarizeKeys` returns entries for, in the order it returns
them. -/
def sortedKeys (rows : List GoMap) : List String :=
  sortStrings ((mapRange (countRows [] rows)).map Prod.fst)

/-- Two lists of rows that hold the same rows up to their order and up to the
representation of each `keys` mapping (the order in which it lists its
entries). -/
def sameRows (rows rows' : List GoMap) : Prop :=
  ∃ mid, List.Perm rows mid ∧
    List.Forall₂ (fun r r' => ∀ key, keyEntry r key = keyEntry r' key) mid rows'

/-- Two rows that each count `2^62` observations of the key `a`. -/
def overflowRows : List GoMap :=
  [[("keys", .map [("a", .float64 ⟨false, 4503599627370496, 10⟩)])],
   [("keys", .map [("a", .float64 ⟨false, 4503599627370496, 10⟩)])]]

/-- The rows `[{keys:{a:2,b:1}},{keys:{a:3}}]`, as decoded from JSON. -/
def sampleRows : List GoMap :=
  [[("keys", .map [("a", .float64 ⟨false, 4503599627370496, -51⟩),
      ("b", .float64 ⟨false, 4503599627370496, -52⟩)])],
   [("keys", .map [("a", .float64 ⟨false, 6755399441055744, -51⟩)])]]

/-- The rows of `sampleRows` in the other order, the first `keys` mapping
listing `b` before `a`. -/
def sampleRowsShuffled : List GoMap :=
  [[("keys", .map [("a", .float64 ⟨false, 6755399441055744, -51⟩)])],
   [("keys", .map [("b", .float64 ⟨false, 4503599627370496, -52⟩),
      ("a", .float64 ⟨false, 4503599627370496, -51⟩)])]]

/-! ## A concrete world for the examples

The state is `Unit`; the clock stands at the Unix epoch, the backend answers
with empty data, no URI parses, and every write succeeds. -/

/-- A world in which every call succeeds with empty data. -/
def quietEnv : Env Unit where
  Sprint := fun _ => "?"
  TimeParse := fun _ => true
  FormatRFC3339 := fun t =>
    if t = 0 then "1970-01-01T00:00:00Z" else if t = -day then "1969-12-31T00:00:00Z" else "?"
  URLParse := fun _ => .error "parse error"
  MarshalIndent := fun _ => .ok "{}"
  Now := fun st => (0, st)
  Encode := fun _ st => (none, st)
  GetMetrics := fun _ st => (.ok ⟨⟨[], []⟩⟩, st)
  GetSourceConfig := fun st => (.ok ⟨⟨"1h", []⟩⟩, st)
  GetSource := fun st => (.ok [], st)
  PostMetrics := fun _ st => (.ok [], st)
  GetTransponders := fun st => (.ok [], st)
  QueryMetrics := fun _ st => (.ok [("data", .map [])], st)

/-- The session before the first frame. -/
def start : Session Unit := { world := { st := (), calls := [] }, out := [] }

/-- A `shutdown` request with the numeric identifier `7`. -/
def shutdownRequest : rpcRequest :=
  { JSONRPC := "2.0", ID := some "7", Method := "shutdown", Params := none }

/-- A `tools/list` frame without an identifier. -/
def toolsListNotification : rpcRequest :=
  { JSONRPC := "2.0", ID := none, Method := "tools/list", Params := none }

/-- An `initialized` frame that carries the identifier `1`. -/
def initializedWithId : rpcRequest :=
  { JSONRPC := "2.0", ID := some "1", Method := "initialized", Params := none }

/-- A `tools/list` frame with the identifier `1` and no version tag. -/
def untaggedWithId : rpcRequest :=
  { JSONRPC := "", ID := some "1", Method := "tools/list", Params := none }

/-- A request for the unknown method `frobnicate`, with a string identifier. -/
def frobnicate : rpcRequest :=
  { JSONRPC := "2.0", ID := some "\"req-1\"", Method := "frobnicate", Params := none }

/-- A `tools/call` request for a tool that does not exist. -/
def unknownToolCall : rpcRequest :=
  { JSONRPC := "2.0", ID := some "2", Method := "tools/call",
    Params := some (.obj [("name", .str "no_such_tool"), ("arguments", .obj [])]) }

/-- A `resources/read` request whose URI does not parse. -/
def badResourceRead : rpcRequest :=
  { JSONRPC := "2.0", ID := some "3", Method := "resources/read",
    Params := some (.obj [("uri", .str "::")]) }

/-- A `tools/call` request whose params carry no tool name. -/
def namelessToolCall : rpcRequest :=
  { JSONRPC := "2.0", ID := some "4", Method := "tools/call",
    Params := some (.obj [("arguments", .obj [])]) }

/-- A `fetch_series` call with the explicit granularity `g` and no window. -/
def fetchSeriesCall (g : String) : rpcRequest :=
  { JSONRPC := "2.0", ID := some "5", Method := "tools/call",
    Params := some (.obj [("name", .str "fetch_series"),
      ("arguments", .obj [("granularity", .str g)])]) }

/-- An `aggregate_series` call whose `slices` argument is the number token
`slices`. -/
def aggregateCall (slices : String) : rpcRequest :=
  { JSONRPC := "2.0", ID := some "6", Method := "tools/call",
    Params := some (.obj [("name", .str "aggregate_series"),
      ("arguments", .obj [("key", .str "k"), ("value_path", .str "v"),
        ("aggregator", .str "sum"), ("granularity", .str "1h"), ("slices", .num slices)])]) }

/-- The query payload of `aggregateCall` in the world `quietEnv`, with the
value `slices` under `slices`. -/
def aggregatePayload (slices : GoValue) : GoMap :=
  [("mode", .string "aggregate"), ("key", .string "k"), ("value_path", .string "v"),
    ("from", .string "1969-12-31T00:00:00Z"), ("to", .string "1970-01-01T00:00:00Z"),
    ("granularity", .string "1h"), ("aggregator", .string "sum"), ("slices", slices)]

/-- An `exit` frame with the identifier `9`. -/
def exitRequest : rpcRequest :=
  { JSONRPC := "2.0", ID := some "9", Method := "exit", Params := none }

/-- An `exit` frame with an identifier and no version tag. -/
def untaggedExit : rpcRequest :=
  { JSONRPC := "", ID := some "9", Method := "exit", Params := none }

/-- The session after the passes of the loop on `frames`, one after the other. -/
def runFrames {σ : Type} (env : Env σ) : List rpcRequest → Session σ → Session σ
  | [], s => s
  | req :: rest, s => runFrames env rest (serveStep env req s).2

/-- Every write of an envelope to the output succeeds. -/
def WritesSucceed {σ : Type} (env : Env σ) : Prop :=
  ∀ response st, (env.Encode response st).1 = none

/-- The world `quietEnv` with an output on which every write fails. -/
def brokenPipeEnv : Env Unit :=
  { quietEnv with Encode := fun _ st => (some "write: broken pipe", st) }

/-- An argument map with a string, a null, a number token and a boolean. -/
def sampleArgs : GoMap :=
  [("s", .string " a "), ("n", .nil), ("t", .number "9007199254740993"), ("b", .bool true)]

/-- The granularity the fallback rule of the specification picks from a source
configuration: the default when it is not empty, else `1h` when advertised,
else `1d` when advertised, else the first advertised value, else `1h`. -/
def fallbackGranularity (config : sourceConfig) : String :=
  if config.DefaultGranularity ≠ "" then config.DefaultGranularity
  else if "1h" ∈ config.AvailableGranularities then "1h"
  else if "1d" ∈ config.AvailableGranularities then "1d"
  else match config.AvailableGranularities with
    | first :: _ => first
    | [] => "1h"

/-- A source configuration without a default that advertises `15m` and `1d`. -/
def sampleConfig : sourceResponse := ⟨⟨"", ["15m", "1d"]⟩⟩

/-- The world `quietEnv` with a backend that answers `sampleConfig`. -/
def configEnv : Env Unit :=
  { quietEnv with GetSourceConfig := fun st => (.ok sampleConfig, st) }

/-- The world `quietEnv` with a `time.Parse` that accepts one timestamp only. -/
def strictEnv : Env Unit :=
  { quietEnv with TimeParse := fun value => value = "2024-01-02T15:04:05Z" }

/-- The seven tool names. -/
def toolNames : List String :=
  ["list_metrics", "fetch_series", "aggregate_series", "format_timeline", "format_category",
    "write_metric", "list_transponders"]

/-- The result map of `initialize` for the protocol version `protocol`. -/
def initializeResult (protocol : String) : GoMap :=
  [("protocolVersion", .string protocol),
    ("capabilities", .map [("tools", .map [("listChanged", .bool false)]),
      ("resources", .map [("listChanged", .bool false)])]),
    ("serverInfo", .map [("name", .string "trifle-cli"), ("version", .string version)])]

/-- An `initialize` request with the identifier `1` and the params `params`. -/
def initializeRequest (params : RawMessage) : rpcRequest :=
  { JSONRPC := "2.0", ID := some "1", Method := "initialize", Params := params }

/-- The three tools that `queryPayload` serves, each with its mode. -/
def queryTools : List (String × String) :=
  [("aggregate_series", "aggregate"), ("format_timeline", "timeline"),
    ("format_category", "category")]

/-- An `aggregate_series` call with the arguments `{"key":"k"}`. -/
def aggregateKeyOnly : rpcRequest :=
  { JSONRPC := "2.0", ID := some "8", Method := "tools/call",
    Params := some (.obj [("name", .str "aggregate_series"),
      ("arguments", .obj [("key", .str "k")])]) }

/-- The function `unicode.ToLower`: on ASCII it maps `A`..`Z` to `a`..`z` and
nothing else; on the other runes it is the parameter `wide` (the case tables
of Unicode). -/
def toLowerRune (wide : Char → Char) (c : Char) : Char :=
  if c.toNat < 128 then c.toLower else wide c

/-- The function `strings.ToLower`: every rune mapped by `unicode.ToLower`. -/
def toLower (wide : Char → Char) (s : String) : String :=
  ⟨s.data.map (toLowerRune wide)⟩

/-- The alternatives of the group `(s|m|h|d|w|mo|q|y)` of `granularityPattern`. -/
def granularityUnits : List String := ["s", "m", "h", "d", "w", "mo", "q", "y"]

/-- The call `granularityPattern.MatchString(s)` for the pattern
`^\d+(s|m|h|d|w|mo|q|y)$`: from the start of the text a longest run of ASCII
digits, not empty, then one of the alternatives up to the end of the text (no
alternative starts with a digit, so the run `\d+` matches is the longest
one). -/
def granularityPattern (s : String) : Bool :=
  !(s.data.takeWhile Char.isDigit).isEmpty &&
    granularityUnits.any fun u => decide (u.data = s.data.dropWhile Char.isDigit)

/-- The function `validateGranularity`. -/
def validateGranularity (wide : Char → Char) (value : String) : Except String String :=
  let normalized := toLower wide (trimSpace value)
  if normalized = "" then .error "granularity is required"
  else if !granularityPattern normalized then
    .error "granularity must be <number><unit> using s, m, h, d, w, mo, q, y (e.g. 1h, 15m, 1d)"
  else .ok normalized

/-- The function `resolveGranularityValue`. -/
def resolveGranularityValue {σ : Type} (env : Env σ) (wide : Char → Char) (granularity : String)
    (w : World σ) : Except String String × World σ :=
  let granularity := trimSpace granularity
  if granularity = "" then resolveGranularity env w
  else (validateGranularity wide granularity, w)

/-- The words of the claim: one or more ASCII digits followed by exactly one of
the units `s`, `m`, `h`, `d`, `w`, `mo`, `q`, `y`, and nothing else. -/
def IsGranularity (s : String) : Prop :=
  ∃ (digits : List Char) (unit : String), digits ≠ [] ∧ (∀ c ∈ digits, c.isDigit = true) ∧
    unit ∈ granularityUnits ∧ s.data = digits ++ unit.data

/-- The white space the JSON scanner skips between tokens. -/
def isJSONSpace (c : Char) : Bool :=
  c = ' ' ∨ c = '\t' ∨ c = '\r' ∨ c = '\n'

/-- The replacement `appendCompact` writes for a character when HTML escaping
is on (the default of a `json.Encoder`, which `serveMCP` leaves on): the
characters `<`, `>`, `&`, U+2028 and U+2029 become the six-character escapes
`\u003c`, `\u003e`, `\u0026`, `\u2028` and `\u2029`; `none` for every other
character. -/
def htmlEscape (c : Char) : Option (List Char) :=
  if c = '<' then some ['\\', 'u', '0', '0', '3', 'c']
  else if c = '>' then some ['\\', 'u', '0', '0', '3', 'e']
  else if c = '&' then some ['\\', 'u', '0', '0', '2', '6']
  else if c.toNat = 0x2028 then some ['\\', 'u', '2', '0', '2', '8']
  else if c.toNat = 0x2029 then some ['\\', 'u', '2', '0', '2', '9']
  else none

/-- The scanner state after the character `c`: whether the text is inside a
string literal, and whether the next character is escaped by a backslash. -/
def scanNext (inString escaped : Bool) (c : Char) : Bool × Bool :=
  (if inString then (escaped || !decide (c = '"')) else decide (c = '"'),
    inString && !escaped && decide (c = '\\'))

/-- The function `appendCompact` of `encoding/json` with HTML escaping, on the
text of a valid JSON value: white space outside string literals is dropped,
the five characters of `htmlEscape` are escaped, everything else is copied. -/
def compact : Bool → Bool → List Char → List Char
  | _, _, [] => []
  | inString, escaped, c :: rest =>
    (match htmlEscape c with
      | some replacement => replacement
      | none => if !inString && isJSONSpace c then [] else [c]) ++
      compact (scanNext inString escaped c).1 (scanNext inString escaped c).2 rest

/-- Whether the text holds white space outside its string literals. -/
def spaceOutside : Bool → Bool → List Char → Bool
  | _, _, [] => false
  | inString, escaped, c :: rest =>
    (!inString && isJSONSpace c) ||
      spaceOutside (scanNext inString escaped c).1 (scanNext inString escaped c).2 rest

/-- The bytes `encoder.Encode` writes for the `id` member of an envelope: the
identifier is a `json.Marshaler`, so its text goes through `appendCompact`;
`none` when the member is left out (`omitempty` on a zero-length
identifier). -/
def wireID (resp : rpcResponse) : Option String :=
  resp.ID.map fun raw => ⟨compact false false raw.data⟩

/-- A `shutdown` request whose identifier is the string `a<b`. -/
def htmlIdRequest : rpcRequest :=
  { JSONRPC := "2.0", ID := some "\"a<b\"", Method := "shutdown", Params := none }

/-- A `shutdown` request whose identifier is the array `[1, 2]`, written with
a blank. -/
def spacedIdRequest : rpcRequest :=
  { JSONRPC := "2.0", ID := some "[1, 2]", Method := "shutdown", Params := none }

/-- A `shutdown` request whose identifier is the string `my id`. -/
def stringIdRequest : rpcRequest :=
  { JSONRPC := "2.0", ID := some "\"my id\"", Method := "shutdown", Params := none }

/-- A `resources/list` request with the identifier `10`. -/
def resourcesListRequest : rpcRequest :=
  { JSONRPC := "2.0", ID := some "10", Method := "resources/list", Params := none }

/-- An `initialize` request whose params carry the version `X` beside a
`capabilities` that is not an object. -/
def badInitializeRequest : rpcRequest :=
  initializeRequest (some (.obj [("protocolVersion", .str "X"), ("capabilities", .num "5")]))

/-! ## Lemmas on the session loop -/

theorem writeResponse_out {σ : Type} (env : Env σ) (req : rpcRequest) (r : rpcResponse)
    (w : World σ) (out : List rpcResponse) :
    (writeResponse env req r w out).2.out = out ++ [r] := by
  simp only [writeResponse]
  split
  · rfl
  · split <;> rfl

theorem writeResponse_calls {σ : Type} (env : Env σ) (req : rpcRequest) (r : rpcResponse)
    (w : World σ) (out : List rpcResponse) :
    (writeResponse env req r w out).2.world.calls = w.calls := by
  simp only [writeResponse]
  split
  · rfl
  · split <;> rfl

theorem handleToolCall_outcome {σ : Type} (env : Env σ) (req : rpcRequest) (w : World σ) :
    Outcome req w (handleToolCall env req w) := by
  simp only [handleToolCall]
  split
  · exact .protocolError _
  · split
    · exact .protocolError _
    · split
      · exact .protocolError _
      · split <;> exact .result _ _

theorem handleResourceRead_outcome {σ : Type} (env : Env σ) (req : rpcRequest) (w : World σ) :
    Outcome req w (handleResourceRead env req w) := by
  simp only [handleResourceRead]
  split
  · exact .protocolError _
  · split
    · exact .protocolError _
    · split
      · exact .protocolError _
      · split <;> exact .result _ _

theorem handleInitialize_outcome {σ : Type} (req : rpcRequest) (w : World σ) :
    Outcome req w (handleInitialize req w) := by
  simp only [handleInitialize]
  split
  · exact .protocolError _
  · exact .result _ _

theorem handleMCPRequest_outcome {σ : Type} (env : Env σ) (req : rpcRequest) (w : World σ) :
    Outcome req w (handleMCPRequest env req w) := by
  unfold handleMCPRequest
  split_ifs
  · exact handleInitialize_outcome req w
  · exact .silent
  · exact .result _ _
  · exact .result _ _
  · exact .result _ _
  · exact handleToolCall_outcome env req w
  · exact .result _ _
  · exact handleResourceRead_outcome env req w
  · exact .protocolError _

/-- Only the method `initialized` is handled without a response and without an
error. -/
theorem handleMCPRequest_silent {σ : Type} (env : Env σ) (req : rpcRequest) (w : World σ)
    (h : (handleMCPRequest env req w).1 = (none, none)) : req.Method = "initialized" := by
  by_contra hm
  unfold handleMCPRequest at h
  rw [if_neg hm] at h
  split_ifs at h
  · simp only [handleInitialize] at h
    split at h <;> simp at h
  · simp at h
  · simp at h
  · simp at h
  · simp only [handleToolCall] at h
    split at h
    · simp at h
    · split at h
      · simp at h
      · split at h
        · simp at h
        · split at h <;> simp at h
  · simp at h
  · simp only [handleResourceRead] at h
    split at h
    · simp at h
    · split at h
      · simp at h
      · split at h
        · simp at h
        · split at h <;> simp at h
  · simp at h

/-! ## The claims -/

/-- C2, at the failing input: a `tools/list` frame without an identifier is
answered, in every world; one envelope, without an identifier, goes to the
encoder. -/
theorem tools_list_notification_is_answered {σ : Type} (env : Env σ) (s : Session σ) :
    written env toolsListNotification s =
      [rpcResult none (.object [("tools", .slice (toolDefinitions.map toolDefinition.toValue))])] := by
  have hh : handleMCPRequest env toolsListNotification s.world =
      ((some (rpcResult none
        (.object [("tools", .slice (toolDefinitions.map toolDefinition.toValue))])), none),
        s.world) := rfl
  simp only [written, serveStep, hh]
  rw [if_neg (by decide), writeResponse_out]
  exact List.drop_left _ _

/-- C3 fails as stated: a frame with an identifier gets no envelope when its
method is `initialized`, and none when it lacks the version tag. -/
theorem identified_frames_without_reply :
    written quietEnv initializedWithId start = [] ∧ written quietEnv untaggedWithId start = [] :=
  ⟨rfl, rfl⟩

/-- C3, amended: a frame that carries the version tag and an identifier and
whose method is not `initialized` makes one pass of the loop hand exactly one
envelope to the encoder, whatever its method and params. -/
theorem identified_frame_one_envelope {σ : Type} (env : Env σ) (req : rpcRequest)
    (s : Session σ) (hv : req.JSONRPC ≠ "") (hid : req.ID ≠ none)
    (hm : req.Method ≠ "initialized") : ∃ resp, written env req s = [resp] := by
  have hid2 : req.ID.isNone = false := by
    cases h : req.ID with
    | none => exact absurd h hid
    | some _ => rfl
  simp only [written, serveStep, if_neg hv, hid2]
  split
  · simp only [Bool.false_eq_true, if_false]
    rw [writeResponse_out]
    exact ⟨_, List.drop_left _ _⟩
  · rename_i he
    split
    · rename_i hr
      exact absurd (handleMCPRequest_silent env req s.world (Prod.ext hr he)) hm
    · rw [writeResponse_out]
      exact ⟨_, List.drop_left _ _⟩

/-- C3 amended, on the `shutdown` request with identifier `7`. -/
theorem identified_frame_one_envelope_witness :
    (shutdownRequest.JSONRPC ≠ "" ∧ shutdownRequest.ID ≠ none ∧
      shutdownRequest.Method ≠ "initialized") ∧
      ∃ resp, written quietEnv shutdownRequest start = [resp] :=
  ⟨⟨by decide, by simp [shutdownRequest], by decide⟩,
    identified_frame_one_envelope quietEnv shutdownRequest start (by decide)
      (by simp [shutdownRequest]) (by decide)⟩

/-- C4: a `tools/call` request whose params decode to a non-empty tool name, and
a `resources/read` request whose params decode to a non-empty URI, get a
success envelope (a result, no error object) and no protocol error, for every
tool name, argument map, URI and backend; when the tool or the resource
handler fails, the result is a tool result with `isError` true and one text
item holding exactly the message of the failure. -/
theorem domain_failures_are_results {σ : Type} (env : Env σ) (req : rpcRequest) (w : World σ) :
    (∀ raw params, req.Method = "tools/call" → req.Params = some raw →
        unmarshalToolCallParams raw = some params → params.Name ≠ "" →
        ∃ result : toolResult,
          handleMCPRequest env req w =
            ((some { JSONRPC := "2.0", ID := req.ID, Result := some (.tool result),
                     Error := none },
              none), (executeTool env params.Name (params.Arguments.getD []) w).2) ∧
          ∀ err, (executeTool env params.Name (params.Arguments.getD []) w).1 = .error err →
            result = { Content := [{ Type_ := "text", Text := err }], IsError := true }) ∧
    (∀ raw params, req.Method = "resources/read" → req.Params = some raw →
        unmarshalResourceReadParams raw = some params → params.URI ≠ "" →
        ∃ result : ResultValue,
          handleMCPRequest env req w =
            ((some { JSONRPC := "2.0", ID := req.ID, Result := some result, Error := none },
              none), (readResource env params.URI w).2) ∧
          ∀ err, (readResource env params.URI w).1 = .error err →
            result = .tool { Content := [{ Type_ := "text", Text := err }], IsError := true }) := by
  constructor
  · intro raw params hm hp hu hn
    have hh : handleMCPRequest env req w = handleToolCall env req w := by
      unfold handleMCPRequest
      simp [hm]
    rw [hh]
    simp only [handleToolCall, hp, hu, if_neg hn]
    cases hx : (executeTool env params.Name (params.Arguments.getD []) w).1 with
    | error err =>
      refine ⟨toolErrorResult err, rfl, ?_⟩
      intro err' he
      cases he
      rfl
    | ok result =>
      refine ⟨result, rfl, ?_⟩
      intro err' he
      cases he
  · intro raw params hm hp hu hn
    have hh : handleMCPRequest env req w = handleResourceRead env req w := by
      unfold handleMCPRequest
      simp [hm]
    rw [hh]
    simp only [handleResourceRead, hp, hu, if_neg hn]
    cases hx : (readResource env params.URI w).1 with
    | error err =>
      refine ⟨.tool (toolErrorResult err), rfl, ?_⟩
      intro err' he
      cases he
      rfl
    | ok result =>
      refine ⟨.resource result, rfl, ?_⟩
      intro err' he
      cases he

/-- C4, on a call of an unknown tool and on a read of a URI that does not parse. -/
theorem domain_failures_are_results_witness :
    ((unknownToolCall.Method = "tools/call" ∧
        unmarshalToolCallParams (.obj [("name", .str "no_such_tool"), ("arguments", .obj [])]) =
          some { Name := "no_such_tool", Arguments := some [] }) ∧
      ∃ result : toolResult,
        handleMCPRequest quietEnv unknownToolCall start.world =
          ((some { JSONRPC := "2.0", ID := unknownToolCall.ID, Result := some (.tool result),
                   Error := none },
            none), (executeTool quietEnv "no_such_tool" [] start.world).2) ∧
        ∀ err, (executeTool quietEnv "no_such_tool" [] start.world).1 = .error err →
          result = { Content := [{ Type_ := "text", Text := err }], IsError := true }) ∧
    ((badResourceRead.Method = "resources/read" ∧
        unmarshalResourceReadParams (.obj [("uri", .str "::")]) = some { URI := "::" }) ∧
      ∃ result : ResultValue,
        handleMCPRequest quietEnv badResourceRead start.world =
          ((some { JSONRPC := "2.0", ID := badResourceRead.ID, Result := some result,
                   Error := none },
            none), (readResource quietEnv "::" start.world).2) ∧
        ∀ err, (readResource quietEnv "::" start.world).1 = .error err →
          result = .tool { Content := [{ Type_ := "text", Text := err }], IsError := true }) :=
  ⟨⟨⟨rfl, rfl⟩,
      (domain_failures_are_results quietEnv unknownToolCall start.world).1 _
        { Name := "no_such_tool", Arguments := some [] } rfl rfl rfl (by decide)⟩,
    ⟨⟨rfl, rfl⟩,
      (domain_failures_are_results quietEnv badResourceRead start.world).2 _
        { URI := "::" } rfl rfl rfl (by decide)⟩⟩

theorem handleToolCall_rejects {σ : Type} (env : Env σ) (req : rpcRequest) (w : World σ)
    (h : toolCallParamsRejected req.Params) :
    ∃ e, e.Code = -32602 ∧ handleToolCall env req w = ((none, some (.rpc e)), w) := by
  simp only [handleToolCall]
  rcases h with h | ⟨raw, hp, h | ⟨q, hq, hn⟩⟩
  · rw [h]; exact ⟨_, rfl, rfl⟩
  · rw [hp]; simp only [h]; exact ⟨_, rfl, rfl⟩
  · rw [hp]; simp only [hq, hn, if_true]; exact ⟨_, rfl, rfl⟩

theorem handleResourceRead_rejects {σ : Type} (env : Env σ) (req : rpcRequest) (w : World σ)
    (h : resourceReadParamsRejected req.Params) :
    ∃ e, e.Code = -32602 ∧ handleResourceRead env req w = ((none, some (.rpc e)), w) := by
  simp only [handleResourceRead]
  rcases h with h | ⟨raw, hp, h | ⟨q, hq, hn⟩⟩
  · rw [h]; exact ⟨_, rfl, rfl⟩
  · rw [hp]; simp only [h]; exact ⟨_, rfl, rfl⟩
  · rw [hp]; simp only [hq, hn, if_true]; exact ⟨_, rfl, rfl⟩

theorem serveStep_protocolError {σ : Type} (env : Env σ) (req : rpcRequest) (s : Session σ)
    (e : rpcError) (hv : req.JSONRPC ≠ "") (hid : req.ID ≠ none)
    (hh : handleMCPRequest env req s.world = ((none, some (.rpc e)), s.world)) :
    written env req s = [{ JSONRPC := "2.0", ID := req.ID, Result := none, Error := some e }] ∧
      sent env req s = [] := by
  have hid2 : req.ID.isNone = false := by
    cases h : req.ID with
    | none => exact absurd h hid
    | some _ => rfl
  constructor
  · simp only [written, serveStep, if_neg hv, hh, hid2, Bool.false_eq_true, if_false]
    rw [writeResponse_out]
    exact List.drop_left _ _
  · simp only [sent, serveStep, if_neg hv, hh, hid2, Bool.false_eq_true, if_false]
    rw [writeResponse_calls]
    simp

/-- C5: `handleToolCall` returns a protocol error of code -32602 and leaves the
world untouched (no tool runs, no backend request is sent) when the params are
absent, do not decode, or decode to an empty tool name; `handleResourceRead`
does the same when the params are absent, do not decode, or carry an empty
URI; with the version tag and an identifier present the session writes that
error as one envelope without a result. -/
theorem invalid_params_rejected {σ : Type} (env : Env σ) (req : rpcRequest) (s : Session σ) :
    (toolCallParamsRejected req.Params →
      ∃ e, e.Code = -32602 ∧ handleToolCall env req s.world = ((none, some (.rpc e)), s.world)) ∧
    (resourceReadParamsRejected req.Params →
      ∃ e, e.Code = -32602 ∧
        handleResourceRead env req s.world = ((none, some (.rpc e)), s.world)) ∧
    (req.JSONRPC ≠ "" → req.ID ≠ none →
      (req.Method = "tools/call" ∧ toolCallParamsRejected req.Params) ∨
        (req.Method = "resources/read" ∧ resourceReadParamsRejected req.Params) →
      ∃ e, e.Code = -32602 ∧
        written env req s =
          [{ JSONRPC := "2.0", ID := req.ID, Result := none, Error := some e }] ∧
        sent env req s = []) := by
  refine ⟨handleToolCall_rejects env req s.world, handleResourceRead_rejects env req s.world, ?_⟩
  intro hv hid h
  rcases h with ⟨hm, h⟩ | ⟨hm, h⟩
  · obtain ⟨e, hc, he⟩ := handleToolCall_rejects env req s.world h
    have hh : handleMCPRequest env req s.world = handleToolCall env req s.world := by
      unfold handleMCPRequest
      simp [hm]
    exact ⟨e, hc, serveStep_protocolError env req s e hv hid (hh.trans he)⟩
  · obtain ⟨e, hc, he⟩ := handleResourceRead_rejects env req s.world h
    have hh : handleMCPRequest env req s.world = handleResourceRead env req s.world := by
      unfold handleMCPRequest
      simp [hm]
    exact ⟨e, hc, serveStep_protocolError env req s e hv hid (hh.trans he)⟩

/-- C5, on a `tools/call` request without a tool name. -/
theorem invalid_params_rejected_witness :
    (namelessToolCall.JSONRPC ≠ "" ∧ namelessToolCall.ID ≠ none ∧
      namelessToolCall.Method = "tools/call" ∧ toolCallParamsRejected namelessToolCall.Params) ∧
    ∃ e, e.Code = -32602 ∧
      written quietEnv namelessToolCall start =
        [{ JSONRPC := "2.0", ID := namelessToolCall.ID, Result := none, Error := some e }] ∧
      sent quietEnv namelessToolCall start = [] :=
  have hr : toolCallParamsRejected namelessToolCall.Params :=
    Or.inr ⟨_, rfl, Or.inr ⟨{ Name := "", Arguments := some [] }, rfl, rfl⟩⟩
  ⟨⟨by decide, by simp [namelessToolCall], rfl, hr⟩,
    (invalid_params_rejected quietEnv namelessToolCall start).2.2 (by decide)
      (by simp [namelessToolCall]) (Or.inl ⟨rfl, hr⟩)⟩

/-- C6: a frame with the version tag and an identifier whose method is none of
the eight fixed names gets one envelope, with the error object of code -32601
and message `method not found: <method>`, and no result. -/
theorem unknown_method_not_found {σ : Type} (env : Env σ) (req : rpcRequest) (s : Session σ)
    (hv : req.JSONRPC ≠ "") (hid : req.ID ≠ none) (hm : req.Method ∉ knownMethods) :
    written env req s =
      [{ JSONRPC := "2.0", ID := req.ID, Result := none,
         Error := some { Code := -32601, Message := "method not found: " ++ req.Method,
                         Data := none } }] := by
  have hid2 : req.ID.isNone = false := by
    cases h : req.ID with
    | none => exact absurd h hid
    | some _ => rfl
  simp only [knownMethods, List.mem_cons, List.mem_singleton, not_or, List.not_mem_nil,
    not_false_eq_true, and_true] at hm
  obtain ⟨h1, h2, h3, h4, h5, h6, h7, h8⟩ := hm
  have hh : handleMCPRequest env req s.world =
      ((none, some (.rpc (methodNotFoundError ("method not found: " ++ req.Method)))), s.world) := by
    unfold handleMCPRequest
    rw [if_neg h1, if_neg h2, if_neg h3, if_neg h4, if_neg h5, if_neg h6, if_neg h7, if_neg h8]
  simp only [written, serveStep, if_neg hv, hh, hid2, Bool.false_eq_true, if_false]
  rw [writeResponse_out]
  exact List.drop_left _ _

/-- C6, on the method `frobnicate`. -/
theorem unknown_method_not_found_witness :
    (frobnicate.JSONRPC ≠ "" ∧ frobnicate.ID ≠ none ∧ frobnicate.Method ∉ knownMethods) ∧
      written quietEnv frobnicate start =
        [{ JSONRPC := "2.0", ID := some "\"req-1\"", Result := none,
           Error := some { Code := -32601, Message := "method not found: frobnicate",
                           Data := none } }] :=
  ⟨⟨by decide, by simp [frobnicate], by decide⟩,
    unknown_method_not_found quietEnv frobnicate start (by decide) (by simp [frobnicate])
      (by decide)⟩

/-! ## Lemmas on the order of strings -/

theorem char_eq_of_toNat_eq {a b : Char} (h : a.toNat = b.toNat) : a = b := by
  apply Char.ext
  apply UInt32.ext
  exact h

theorem charsLt_irrefl (a : List Char) : charsLt a a = false := by
  induction a with
  | nil => rfl
  | cons x xs ih => simp [charsLt, ih]

theorem charsLt_asymm : ∀ (a b : List Char), charsLt a b = true → charsLt b a = false
  | _, [], h => by simp [charsLt] at h
  | [], _ :: _, _ => by simp [charsLt]
  | x :: xs, y :: ys, h => by
    simp only [charsLt] at h ⊢
    split_ifs at h ⊢ <;> first | omega | exact charsLt_asymm xs ys h | rfl

theorem charsLt_trans : ∀ (a b c : List Char), charsLt a b = true → charsLt b c = true →
    charsLt a c = true
  | _, _, [], _, h => by simp [charsLt] at h
  | _, [], _ :: _, h, _ => by simp [charsLt] at h
  | [], _ :: _, _ :: _, _, _ => by simp [charsLt]
  | x :: xs, y :: ys, z :: zs, h1, h2 => by
    simp only [charsLt] at h1 h2 ⊢
    split_ifs at h1 h2 ⊢ <;>
      first | omega | exact charsLt_trans xs ys zs h1 h2 | rfl

theorem charsLt_trichotomy : ∀ (a b : List Char), charsLt a b = false → charsLt b a = false →
    a = b
  | [], [], _, _ => rfl
  | [], _ :: _, h, _ => by simp [charsLt] at h
  | _ :: _, [], _, h => by simp [charsLt] at h
  | x :: xs, y :: ys, h1, h2 => by
    simp only [charsLt] at h1 h2
    split_ifs at h1 h2 <;> first | omega | skip
    rename_i hxy _ _
    rw [char_eq_of_toNat_eq hxy, charsLt_trichotomy xs ys h1 h2]

/-! ## Lemmas on maps -/

theorem mapGet_mapSet {α : Type} (m : List (String × α)) (k k' : String) (v : α) :
    mapGet (mapSet m k v) k' = if k = k' then some v else mapGet m k' := by
  induction m with
  | nil => simp [mapSet, mapGet]
  | cons e rest ih =>
    obtain ⟨k0, v0⟩ := e
    simp only [mapSet]
    by_cases h0 : k0 = k
    · subst h0
      simp only [if_true, mapGet]
      by_cases h1 : k0 = k' <;> simp [h1]
    · simp only [if_neg h0, mapGet, ih]
      by_cases h1 : k0 = k'
      · subst h1
        simp [Ne.symm h0]
      · simp [h1]

theorem mapGet_isSome_iff {α : Type} (m : List (String × α)) (key : String) :
    (mapGet m key).isSome = true ↔ key ∈ m.map Prod.fst := by
  induction m with
  | nil => simp [mapGet]
  | cons e rest ih =>
    obtain ⟨k0, v0⟩ := e
    simp only [mapGet, List.map_cons, List.mem_cons]
    by_cases h : k0 = key
    · simp [h]
    · simp [h, ih, Ne.symm h]

theorem mapRange_filter {α : Type} (m : List (String × α)) (key : String) :
    (mapRange m).filter (fun e => decide (e.1 = key)) =
      match mapGet m key with
      | some v => [(key, v)]
      | none => [] := by
  induction m with
  | nil => simp [mapRange, mapGet]
  | cons e rest ih =>
    obtain ⟨k0, v0⟩ := e
    simp only [mapRange, mapGet, List.filter_cons, List.filter_filter]
    by_cases h : k0 = key
    · subst h
      simp
    · simp only [h, decide_False, Bool.false_eq_true, if_false]
      rw [← ih]
      apply List.filter_congr
      intro x _
      by_cases hx : x.1 = key
      · simp [hx, Ne.symm h]
      · simp [hx]

theorem mapRange_keys {α : Type} (m : List (String × α)) (key : String) :
    key ∈ (mapRange m).map Prod.fst ↔ (mapGet m key).isSome = true := by
  have h := mapRange_filter m key
  constructor
  · intro hk
    obtain ⟨e, he, hek⟩ := List.mem_map.1 hk
    have : e ∈ (mapRange m).filter (fun e => decide (e.1 = key)) := by
      simp [List.mem_filter, he, hek]
    rw [h] at this
    cases hg : mapGet m key with
    | none => rw [hg] at this; simp at this
    | some v => rfl
  · intro hs
    cases hg : mapGet m key with
    | none => rw [hg] at hs; simp at hs
    | some v =>
      rw [hg] at h
      have : (key, v) ∈ (mapRange m).filter (fun e => decide (e.1 = key)) := by
        rw [h]; simp
      exact List.mem_map.2 ⟨(key, v), (List.mem_filter.1 this).1, rfl⟩

theorem mapRange_nodup {α : Type} (m : List (String × α)) :
    ((mapRange m).map Prod.fst).Nodup := by
  induction m with
  | nil => simp [mapRange]
  | cons e rest ih =>
    obtain ⟨k0, v0⟩ := e
    simp only [mapRange, List.map_cons, List.nodup_cons]
    constructor
    · intro hk
      obtain ⟨e, he, hek⟩ := List.mem_map.1 hk
      have := (List.mem_filter.1 he).2
      simp [hek] at this
    · exact (ih.sublist ((List.filter_sublist _).map _))

/-! ## Lemmas on the counting loops of `summarizeKeys` -/

theorem wrapInt64_add_left (a b : Int) : wrapInt64 (wrapInt64 a + b) = wrapInt64 (a + b) := by
  unfold wrapInt64
  omega

theorem wrapInt64_idem (a : Int) : wrapInt64 (wrapInt64 a) = wrapInt64 a := by
  unfold wrapInt64
  omega

theorem wrapInt64_of_range (a : Int) (h1 : -(2 : Int) ^ 63 ≤ a) (h2 : a < (2 : Int) ^ 63) :
    wrapInt64 a = a := by
  unfold wrapInt64
  omega

theorem countOf_mapSet (counts : List (String × Int)) (k key : String) (v : Int) :
    countOf (mapSet counts k v) key = if k = key then v else countOf counts key := by
  unfold countOf
  rw [mapGet_mapSet]
  split <;> rfl

theorem tally_cons (e : String × GoValue) (es : List (String × GoValue)) (key : String) :
    tally (e :: es) key = (if e.1 = key then toInt64 e.2 else 0) + tally es key := by
  unfold tally
  by_cases h : e.1 = key
  · simp [List.filter_cons, h]
  · simp [List.filter_cons, h]

theorem addCounts_countOf (es : List (String × GoValue)) :
    ∀ (counts : List (String × Int)) (key : String),
      wrapInt64 (countOf (addCounts counts es) key) = wrapInt64 (countOf counts key + tally es key) := by
  induction es with
  | nil => intro counts key; simp [addCounts, tally]
  | cons e rest ih =>
    intro counts key
    obtain ⟨k, v⟩ := e
    simp only [addCounts]
    rw [ih, countOf_mapSet, tally_cons]
    by_cases h : k = key
    · subst h
      simp only [if_true]
      rw [wrapInt64_add_left, Int.add_assoc]
      rfl
    · simp only [if_neg h]
      congr 1
      omega

theorem addCounts_wrapped (es : List (String × GoValue)) :
    ∀ (counts : List (String × Int)), Wrapped counts → Wrapped (addCounts counts es) := by
  induction es with
  | nil => intro counts h; exact h
  | cons e rest ih =>
    intro counts h
    obtain ⟨k, v⟩ := e
    simp only [addCounts]
    apply ih
    intro key
    rw [countOf_mapSet]
    split
    · exact wrapInt64_idem _
    · exact h key

theorem addCounts_keys (es : List (String × GoValue)) :
    ∀ (counts : List (String × Int)) (key : String),
      (mapGet (addCounts counts es) key).isSome = true ↔
        (mapGet counts key).isSome = true ∨ key ∈ es.map Prod.fst := by
  induction es with
  | nil => intro counts key; simp [addCounts]
  | cons e rest ih =>
    intro counts key
    obtain ⟨k, v⟩ := e
    simp only [addCounts]
    rw [ih, mapGet_mapSet]
    by_cases h : k = key
    · simp [h]
    · simp [h, Ne.symm h]

theorem tally_mapRange (m : GoMap) (key : String) :
    tally (mapRange m) key = match mapGet m key with
      | some value => toInt64 value
      | none => 0 := by
  unfold tally
  rw [mapRange_filter]
  cases mapGet m key <;> simp

theorem countRows_countOf (rows : List GoMap) :
    ∀ (counts : List (String × Int)) (key : String),
      wrapInt64 (countOf (countRows counts rows) key) =
        wrapInt64 (countOf counts key + exactTotal rows key) := by
  induction rows with
  | nil => intro counts key; simp [countRows, exactTotal]
  | cons row rest ih =>
    intro counts key
    have hsum : exactTotal (row :: rest) key = rowCount row key + exactTotal rest key := by
      simp [exactTotal]
    rw [hsum]
    simp only [countRows]
    split
    · rename_i keysMap hk
      rw [ih, ← wrapInt64_add_left, addCounts_countOf, wrapInt64_add_left, tally_mapRange]
      have : rowCount row key = match mapGet keysMap key with
          | some value => toInt64 value
          | none => 0 := by
        simp [rowCount, keyEntry, hk]
      rw [this, Int.add_assoc]
    · rename_i hk
      rw [ih]
      have : rowCount row key = 0 := by
        unfold rowCount keyEntry
        split
        · rename_i v hv
          split at hv
          · rename_i m hm
            exact absurd hm (hk m)
          · simp at hv
        · rfl
      rw [this]
      congr 1
      omega

theorem countRows_wrapped (rows : List GoMap) :
    ∀ (counts : List (String × Int)), Wrapped counts → Wrapped (countRows counts rows) := by
  induction rows with
  | nil => intro counts h; exact h
  | cons row rest ih =>
    intro counts h
    simp only [countRows]
    split
    · exact ih _ (addCounts_wrapped _ _ h)
    · exact ih _ h

theorem countRows_keys (rows : List GoMap) :
    ∀ (counts : List (String × Int)) (key : String),
      (mapGet (countRows counts rows) key).isSome = true ↔
        (mapGet counts key).isSome = true ∨ ∃ row ∈ rows, (keyEntry row key).isSome = true := by
  induction rows with
  | nil => intro counts key; simp [countRows]
  | cons row rest ih =>
    intro counts key
    simp only [countRows]
    split
    · rename_i keysMap hk
      rw [ih, addCounts_keys, mapRange_keys]
      have : (keyEntry row key).isSome = (mapGet keysMap key).isSome := by
        simp [keyEntry, hk]
      simp only [List.mem_cons, exists_eq_or_imp, this]
      tauto
    · rename_i hk
      rw [ih]
      have : (keyEntry row key).isSome = false := by
        unfold keyEntry
        split
        · rename_i m hm
          exact absurd hm (hk m)
        · rfl
      simp [this]

/-! ## Lemmas on `summarizeKeys`, and the claims about it -/

theorem strLe_total (a b : String) : strLe a b = true ∨ strLe b a = true := by
  unfold strLe
  cases h : charsLt b.data a.data with
  | false => left; rfl
  | true => right; rw [charsLt_asymm _ _ h]; rfl

theorem strLt_of_not_le {a b : String} (h : strLe b a = false) : strLt a b = true := by
  unfold strLe at h
  unfold strLt
  simpa using h

theorem strLe_trans (a b c : String) (h1 : strLe a b = true) (h2 : strLe b c = true) :
    strLe a c = true := by
  unfold strLe at h1 h2 ⊢
  simp only [Bool.not_eq_true', Bool.not_eq_true] at h1 h2 ⊢
  cases hca : charsLt c.data a.data with
  | false => rfl
  | true =>
    cases hab : charsLt a.data b.data with
    | false =>
      have := charsLt_trichotomy _ _ hab h1
      rw [this] at hca
      rw [hca] at h2
      cases h2
    | true =>
      have := charsLt_trans _ _ _ hca hab
      rw [this] at h2
      cases h2

theorem strLt_of_le_of_ne {a b : String} (h : strLe a b = true) (hne : a ≠ b) :
    strLt a b = true := by
  unfold strLe at h
  unfold strLt
  simp only [Bool.not_eq_true', Bool.not_eq_true] at h
  cases hab : charsLt a.data b.data with
  | true => rfl
  | false =>
    exfalso
    apply hne
    have := charsLt_trichotomy _ _ hab h
    cases a; cases b
    simp only at this
    rw [this]

theorem sortStrings_perm (keys : List String) : (sortStrings keys).Perm keys :=
  List.perm_insertionSort _ _

theorem sortStrings_sorted (keys : List String) :
    (sortStrings keys).Pairwise (fun a b => strLe a b = true) := by
  haveI : IsTotal String (fun a b => strLe a b = true) := ⟨strLe_total⟩
  haveI : IsTrans String (fun a b => strLe a b = true) := ⟨strLe_trans⟩
  exact List.sorted_insertionSort _ keys

theorem sortStrings_strict (keys : List String) (h : keys.Nodup) :
    (sortStrings keys).Pairwise (fun a b => strLt a b = true) := by
  have hs := sortStrings_sorted keys
  have hn : (sortStrings keys).Nodup := (sortStrings_perm keys).nodup_iff.2 h
  have := hs.and hn
  exact this.imp (fun ⟨h1, h2⟩ => strLt_of_le_of_ne h1 h2)

theorem sortedKeys_mem (rows : List GoMap) (key : String) :
    key ∈ sortedKeys rows ↔ ∃ row ∈ rows, (keyEntry row key).isSome = true := by
  unfold sortedKeys
  rw [(sortStrings_perm _).mem_iff, mapRange_keys, countRows_keys]
  simp [mapGet]

theorem sortedKeys_nodup (rows : List GoMap) : (sortedKeys rows).Nodup :=
  (sortStrings_perm _).nodup_iff.2 (mapRange_nodup _)

theorem sortedKeys_strict (rows : List GoMap) :
    (sortedKeys rows).Pairwise (fun a b => strLt a b = true) :=
  sortStrings_strict _ (mapRange_nodup _)

theorem countOf_countRows (rows : List GoMap) (key : String) :
    countOf (countRows [] rows) key = wrapInt64 (exactTotal rows key) := by
  have hw : Wrapped (countRows [] rows) := countRows_wrapped rows [] (by intro k; rfl)
  rw [← hw key, countRows_countOf]
  congr 1
  simp [countOf, mapGet]

theorem summarizeKeys_eq (rows : List GoMap) :
    summarizeKeys rows =
      (sortedKeys rows).map fun key => ⟨key, wrapInt64 (exactTotal rows key)⟩ := by
  unfold summarizeKeys sortedKeys
  simp only
  apply List.map_congr_left
  intro key _
  have := countOf_countRows rows key
  unfold countOf at this
  rw [this]

theorem summarizeKeys_keys (rows : List GoMap) :
    (summarizeKeys rows).map (fun e => e.MetricKey) = sortedKeys rows := by
  rw [summarizeKeys_eq, List.map_map]
  exact List.map_id _


theorem rowCount_congr {r r' : GoMap} (h : ∀ key, keyEntry r key = keyEntry r' key)
    (key : String) : rowCount r key = rowCount r' key := by
  unfold rowCount
  rw [h key]

theorem sameRows_exactTotal {rows rows' : List GoMap} (h : sameRows rows rows') (key : String) :
    exactTotal rows key = exactTotal rows' key := by
  obtain ⟨mid, hp, hf⟩ := h
  unfold exactTotal
  rw [(hp.map _).sum_eq]
  congr 1
  clear hp
  induction hf with
  | nil => rfl
  | cons hr _ ih => simp [rowCount_congr hr key, ih]

theorem sameRows_mem {rows rows' : List GoMap} (h : sameRows rows rows') (key : String) :
    (∃ row ∈ rows, (keyEntry row key).isSome = true) ↔
      ∃ row ∈ rows', (keyEntry row key).isSome = true := by
  obtain ⟨mid, hp, hf⟩ := h
  have h1 : (∃ row ∈ rows, (keyEntry row key).isSome = true) ↔
      ∃ row ∈ mid, (keyEntry row key).isSome = true := by
    constructor
    · rintro ⟨row, hr, hs⟩; exact ⟨row, hp.mem_iff.1 hr, hs⟩
    · rintro ⟨row, hr, hs⟩; exact ⟨row, hp.mem_iff.2 hr, hs⟩
  rw [h1]
  clear h1 hp
  induction hf with
  | nil => simp
  | cons hr _ ih => simp only [List.mem_cons, exists_eq_or_imp, hr key, ih]

theorem sameRows_sortedKeys {rows rows' : List GoMap} (h : sameRows rows rows') :
    sortedKeys rows = sortedKeys rows' := by
  haveI : IsAntisymm String (fun a b => strLt a b = true) :=
    ⟨fun a b h1 h2 => by
      unfold strLt at h1 h2
      rw [charsLt_asymm _ _ h1] at h2
      cases h2⟩
  apply List.eq_of_perm_of_sorted _ (sortedKeys_strict rows) (sortedKeys_strict rows')
  rw [List.perm_ext_iff_of_nodup (sortedKeys_nodup rows) (sortedKeys_nodup rows')]
  intro key
  rw [sortedKeys_mem, sortedKeys_mem, sameRows_mem h]

theorem summarizeKeys_congr {rows rows' : List GoMap} (h : sameRows rows rows') :
    summarizeKeys rows = summarizeKeys rows' := by
  rw [summarizeKeys_eq, summarizeKeys_eq, sameRows_sortedKeys h]
  apply List.map_congr_left
  intro key _
  rw [sameRows_exactTotal h]

/-- C7 fails as stated: two rows that each count `4611686018427387904` (`2^62`,
a number `encoding/json` decodes exactly) observations of `a` give the entry
`a = -2^63`, while the sum of the counts is `2^63`. -/
theorem summarizeKeys_overflows :
    decodeAny (.num "4611686018427387904") =
      some (.float64 ⟨false, 4503599627370496, 10⟩) ∧
    toInt64 (.float64 ⟨false, 4503599627370496, 10⟩) = 4611686018427387904 ∧
    summarizeKeys overflowRows = [⟨"a", -9223372036854775808⟩] ∧
    exactTotal overflowRows "a" = 9223372036854775808 :=
  ⟨rfl, by decide, by decide, by decide⟩

/-- C7, amended: `summarizeKeys` returns exactly one entry for each key that
occurs in the `keys` mapping of at least one row and none for any other key;
the observations of an entry are the sum over all rows of the counts of its
key (converted by `toInt64`, `0` for a non-numeric count or a row without a
`keys` mapping) wrapped to the `int64` range, hence the sum itself whenever
the sum is in that range. -/
theorem summarizeKeys_totals (rows : List GoMap) :
    (∀ key, key ∈ (summarizeKeys rows).map (fun e => e.MetricKey) ↔
      ∃ row ∈ rows, (keyEntry row key).isSome = true) ∧
    ((summarizeKeys rows).map fun e => e.MetricKey).Nodup ∧
    (∀ e ∈ summarizeKeys rows, e.Observations = wrapInt64 (exactTotal rows e.MetricKey)) ∧
    (∀ e ∈ summarizeKeys rows, -(2 : Int) ^ 63 ≤ exactTotal rows e.MetricKey →
      exactTotal rows e.MetricKey < (2 : Int) ^ 63 →
      e.Observations = exactTotal rows e.MetricKey) := by
  have hobs : ∀ e ∈ summarizeKeys rows,
      e.Observations = wrapInt64 (exactTotal rows e.MetricKey) := by
    intro e he
    rw [summarizeKeys_eq] at he
    obtain ⟨key, _, rfl⟩ := List.mem_map.1 he
    rfl
  refine ⟨?_, ?_, hobs, ?_⟩
  · intro key
    rw [summarizeKeys_keys, sortedKeys_mem]
  · rw [summarizeKeys_keys]
    exact sortedKeys_nodup rows
  · intro e he h1 h2
    rw [hobs e he, wrapInt64_of_range _ h1 h2]

/-- C7 amended, on the rows `[{keys:{a:2,b:1}},{keys:{a:3}}]`: they give `a = 5`
and `b = 1`, the sums of the counts. -/
theorem summarizeKeys_totals_witness :
    summarizeKeys sampleRows = [⟨"a", 5⟩, ⟨"b", 1⟩] ∧
      ((⟨"a", 5⟩ : keysEntry) ∈ summarizeKeys sampleRows ∧
        -(2 : Int) ^ 63 ≤ exactTotal sampleRows "a" ∧ exactTotal sampleRows "a" < (2 : Int) ^ 63) ∧
      (5 : Int) = exactTotal sampleRows "a" :=
  ⟨by decide, ⟨by decide, by decide, by decide⟩,
    (summarizeKeys_totals sampleRows).2.2.2 ⟨"a", 5⟩ (by decide) (by decide) (by decide)⟩

/-- C8: the entries `summarizeKeys` returns are in strictly ascending order of
`metric_key`, so no key appears twice, and the result is the same for two
lists of rows that differ in the order of the rows or in the order in which a
`keys` mapping lists its entries. -/
theorem summarizeKeys_sorted (rows rows' : List GoMap) :
    (summarizeKeys rows).Pairwise (fun a b => strLt a.MetricKey b.MetricKey = true) ∧
    ((summarizeKeys rows).map fun e => e.MetricKey).Nodup ∧
    (sameRows rows rows' → summarizeKeys rows = summarizeKeys rows') := by
  refine ⟨?_, ?_, summarizeKeys_congr⟩
  · have h := sortedKeys_strict rows
    rw [← summarizeKeys_keys] at h
    exact (List.pairwise_map.1 h)
  · rw [summarizeKeys_keys]
    exact sortedKeys_nodup rows


/-- The rows `sampleRows` and `sampleRowsShuffled` hold the same rows. -/
theorem sampleRows_same : sameRows sampleRows sampleRowsShuffled := by
  refine ⟨[[("keys", .map [("a", .float64 ⟨false, 6755399441055744, -51⟩)])],
    [("keys", .map [("a", .float64 ⟨false, 4503599627370496, -51⟩),
      ("b", .float64 ⟨false, 4503599627370496, -52⟩)])]], List.Perm.swap _ _ _, ?_⟩
  refine List.Forall₂.cons (fun _ => rfl) (List.Forall₂.cons ?_ List.Forall₂.nil)
  intro key
  simp only [keyEntry, mapGet, if_true]
  by_cases ha : "a" = key
  · subst ha; simp
  · by_cases hb : "b" = key
    · subst hb; simp
    · simp [ha, hb]

/-- C8, on the rows `[{keys:{a:2,b:1}},{keys:{a:3}}]` and the same rows in the
other order with `b` listed before `a`. -/
theorem summarizeKeys_sorted_witness :
    sameRows sampleRows sampleRowsShuffled ∧
      summarizeKeys sampleRows = summarizeKeys sampleRowsShuffled :=
  ⟨sampleRows_same, (summarizeKeys_sorted sampleRows sampleRowsShuffled).2.2 sampleRows_same⟩

/-! ## The claims on what reaches the backend -/

/-- C9, at the failing inputs: a `fetch_series` call with the granularity `1H`
sends the metrics request with `1H`, not `1h`, and a call with the granularity
`bogus`, which the pattern rejects, sends the metrics request all the same. -/
theorem granularity_sent_unvalidated :
    sent quietEnv (fetchSeriesCall "1H") start =
      [.GetMetrics [("from", "1969-12-31T00:00:00Z"), ("to", "1970-01-01T00:00:00Z"),
        ("granularity", "1H")]] ∧
    sent quietEnv (fetchSeriesCall "bogus") start =
      [.GetMetrics [("from", "1969-12-31T00:00:00Z"), ("to", "1970-01-01T00:00:00Z"),
        ("granularity", "bogus")]] :=
  ⟨rfl, rfl⟩

/-- C10, at the failing input: the `slices` argument `9007199254740993` reaches
the query payload as a `float64`, of value `9007199254740992`; it is the
payload the argument `9007199254740992` gives. -/
theorem slices_sent_as_float64 :
    sent quietEnv (aggregateCall "9007199254740993") start =
      [.QueryMetrics (aggregatePayload (.float64 ⟨false, 4503599627370496, 1⟩))] ∧
    sent quietEnv (aggregateCall "9007199254740992") start =
      [.QueryMetrics (aggregatePayload (.float64 ⟨false, 4503599627370496, 1⟩))] ∧
    float64ToInt64 ⟨false, 4503599627370496, 1⟩ = 9007199254740992 :=
  ⟨rfl, rfl, by decide⟩

/-! ## The session as a whole -/

theorem serveMCP_next {σ : Type} (env : Env σ) (req : rpcRequest) (rest : List Decoded)
    (s s' : Session σ) (h : serveStep env req s = (.next, s')) :
    serveMCP env (.frame req :: rest) s = serveMCP env rest s' := by
  simp only [serveMCP, h]

theorem serveMCP_stop {σ : Type} (env : Env σ) (req : rpcRequest) (rest : List Decoded)
    (s s' : Session σ) (err : Option String) (h : serveStep env req s = (.stop err, s')) :
    serveMCP env (.frame req :: rest) s = (err, s') := by
  simp only [serveMCP, h]

/-- The pass on a tagged `exit` frame: the empty result goes to the encoder and
the loop stops, with the error of the write. -/
theorem serveStep_exit {σ : Type} (env : Env σ) (req : rpcRequest) (s : Session σ)
    (hv : req.JSONRPC ≠ "") (hm : req.Method = "exit") :
    serveStep env req s =
      (.stop (env.Encode (rpcResult req.ID (.object [])) s.world.st).1,
        { world := { s.world with
            st := (env.Encode (rpcResult req.ID (.object [])) s.world.st).2 },
          out := s.out ++ [rpcResult req.ID (.object [])] }) := by
  have hh : handleMCPRequest env req s.world =
      ((some (rpcResult req.ID (.object [])), none), s.world) := by
    unfold handleMCPRequest
    rw [hm]
    rfl
  simp only [serveStep, if_neg hv, hh, writeResponse, hm, if_true]
  cases (env.Encode (rpcResult req.ID (.object [])) s.world.st).1 <;> rfl

/-- When every write succeeds, a pass stops the loop only on a tagged `exit`
frame. -/
theorem serveStep_next {σ : Type} (env : Env σ) (req : rpcRequest) (s : Session σ)
    (hw : WritesSucceed env) (hx : ¬(req.JSONRPC ≠ "" ∧ req.Method = "exit")) :
    serveStep env req s = (.next, (serveStep env req s).2) := by
  have hwr : ∀ (response : rpcResponse) (w : World σ) (out : List rpcResponse),
      req.JSONRPC ≠ "" →
      writeResponse env req response w out = (.next, (writeResponse env req response w out).2) := by
    intro response w out hv
    have hm : req.Method ≠ "exit" := fun h => hx ⟨hv, h⟩
    simp only [writeResponse, hw response w.st, if_neg hm]
  simp only [serveStep]
  split
  · rfl
  · rename_i hv
    split
    · split
      · rfl
      · exact hwr _ _ _ hv
    · split
      · rfl
      · exact hwr _ _ _ hv

theorem serveMCP_after_exit {σ : Type} (env : Env σ) (ex : rpcRequest) (post : List Decoded)
    (hv : ex.JSONRPC ≠ "") (hm : ex.Method = "exit") :
    ∀ (pre : List rpcRequest) (s : Session σ),
      serveMCP env (pre.map Decoded.frame ++ Decoded.frame ex :: post) s =
        serveMCP env (pre.map Decoded.frame ++ [Decoded.frame ex]) s := by
  intro pre
  induction pre with
  | nil =>
    intro s
    simp only [List.map_nil, List.nil_append]
    rw [serveMCP_stop env ex post s _ _ (serveStep_exit env ex s hv hm),
      serveMCP_stop env ex [] s _ _ (serveStep_exit env ex s hv hm)]
  | cons r rest ih =>
    intro s
    simp only [List.map_cons, List.cons_append, serveMCP]
    split
    · exact ih _
    · rfl

theorem serveMCP_runFrames {σ : Type} (env : Env σ) (hw : WritesSucceed env)
    (tail : List Decoded) :
    ∀ (pre : List rpcRequest) (s : Session σ),
      (∀ r ∈ pre, ¬(r.JSONRPC ≠ "" ∧ r.Method = "exit")) →
      serveMCP env (pre.map Decoded.frame ++ tail) s = serveMCP env tail (runFrames env pre s) := by
  intro pre
  induction pre with
  | nil => intro s _; rfl
  | cons r rest ih =>
    intro s hx
    simp only [List.map_cons, List.cons_append, runFrames]
    rw [serveMCP_next env r _ s _ (serveStep_next env r s hw (hx r (List.mem_cons_self _ _)))]
    exact ih _ (fun r' hr' => hx r' (List.mem_cons_of_mem _ hr'))

/-- C11 fails as stated: on an output that rejects the write, `serveMCP` on an
`exit` frame returns the error of the write. -/
theorem exit_returns_write_error :
    (serveMCP brokenPipeEnv [.frame exitRequest] start).1 = some "write: broken pipe" := by
  rfl

/-- C11, amended: for an input that holds a frame with the version tag and the
method `exit`, nothing after that frame has any effect on what `serveMCP`
returns and leaves (it is not dispatched, no envelope is written for it, no
backend request is sent for it); and when every write succeeds and the frame
is the first such frame, `serveMCP` runs the passes on the frames before it,
hands the `exit` reply to the encoder without a backend request, and returns
no error. -/
theorem exit_ends_session {σ : Type} (env : Env σ) (pre : List rpcRequest) (ex : rpcRequest)
    (post : List Decoded) (s : Session σ) (hv : ex.JSONRPC ≠ "") (hm : ex.Method = "exit") :
    serveMCP env (pre.map Decoded.frame ++ Decoded.frame ex :: post) s =
      serveMCP env (pre.map Decoded.frame ++ [Decoded.frame ex]) s ∧
    (WritesSucceed env → (∀ r ∈ pre, ¬(r.JSONRPC ≠ "" ∧ r.Method = "exit")) →
      serveMCP env (pre.map Decoded.frame ++ Decoded.frame ex :: post) s =
        (none,
          { world := { (runFrames env pre s).world with
              st := (env.Encode (rpcResult ex.ID (.object [])) (runFrames env pre s).world.st).2 },
            out := (runFrames env pre s).out ++ [rpcResult ex.ID (.object [])] })) := by
  refine ⟨serveMCP_after_exit env ex post hv hm pre s, ?_⟩
  intro hw hx
  rw [serveMCP_runFrames env hw _ pre s hx,
    serveMCP_stop env ex post _ _ _ (serveStep_exit env ex _ hv hm), hw]

theorem quietEnv_writes : WritesSucceed quietEnv := fun _ _ => rfl

/-- C11 amended, on the input `shutdown`, `exit`, `tools/list`: the session ends
without an error after the replies to `shutdown` and `exit`. -/
theorem exit_ends_session_witness :
    (exitRequest.JSONRPC ≠ "" ∧ exitRequest.Method = "exit" ∧ WritesSucceed quietEnv ∧
      ∀ r ∈ [shutdownRequest], ¬(r.JSONRPC ≠ "" ∧ r.Method = "exit")) ∧
    serveMCP quietEnv
      ([shutdownRequest].map Decoded.frame ++
        Decoded.frame exitRequest :: [Decoded.frame toolsListNotification]) start =
      (none,
        { world := { (runFrames quietEnv [shutdownRequest] start).world with
            st := (quietEnv.Encode (rpcResult exitRequest.ID (.object []))
              (runFrames quietEnv [shutdownRequest] start).world.st).2 },
          out := (runFrames quietEnv [shutdownRequest] start).out ++
            [rpcResult exitRequest.ID (.object [])] }) :=
  have hx : ∀ r ∈ [shutdownRequest], ¬(r.JSONRPC ≠ "" ∧ r.Method = "exit") := by
    intro r hr
    rw [List.mem_singleton] at hr
    subst hr
    decide
  ⟨⟨by decide, rfl, quietEnv_writes, hx⟩,
    (exit_ends_session quietEnv [shutdownRequest] exitRequest [Decoded.frame toolsListNotification]
      start (by decide) rfl).2 quietEnv_writes hx⟩

/-- C18: a frame whose method is `initialized`, with or without an identifier
and the version tag and whatever its params, leaves the session as it was (no
envelope written, no backend request sent) and the loop goes on to the next
frame. -/
theorem initialized_is_silent {σ : Type} (env : Env σ) (req : rpcRequest) (s : Session σ)
    (rest : List Decoded) (hm : req.Method = "initialized") :
    serveStep env req s = (.next, s) ∧ written env req s = [] ∧ sent env req s = [] ∧
      serveMCP env (.frame req :: rest) s = serveMCP env rest s := by
  have hh : handleMCPRequest env req s.world = ((none, none), s.world) := by
    unfold handleMCPRequest
    rw [hm]
    rfl
  have hs : serveStep env req s = (.next, s) := by
    simp only [serveStep, hh]
    split <;> rfl
  refine ⟨hs, ?_, ?_, serveMCP_next env req rest s s hs⟩
  · simp [written, hs]
  · simp [sent, hs]

/-- C18, on an `initialized` frame that carries the identifier `1`. -/
theorem initialized_is_silent_witness :
    initializedWithId.Method = "initialized" ∧
      (serveStep quietEnv initializedWithId start = (.next, start) ∧
        written quietEnv initializedWithId start = [] ∧
        sent quietEnv initializedWithId start = [] ∧
        serveMCP quietEnv (.frame initializedWithId :: [.frame shutdownRequest]) start =
          serveMCP quietEnv [.frame shutdownRequest] start) :=
  ⟨rfl, initialized_is_silent quietEnv initializedWithId start [.frame shutdownRequest] rfl⟩

/-- C19: a frame whose version tag is empty is not dispatched: the session is
left as it was (no envelope, no backend request, no error), whatever the
identifier, the method and the params, and the loop goes on to the next
frame. -/
theorem untagged_frame_is_skipped {σ : Type} (env : Env σ) (req : rpcRequest) (s : Session σ)
    (rest : List Decoded) (hv : req.JSONRPC = "") :
    serveStep env req s = (.next, s) ∧ written env req s = [] ∧ sent env req s = [] ∧
      serveMCP env (.frame req :: rest) s = serveMCP env rest s := by
  have hs : serveStep env req s = (.next, s) := by
    simp only [serveStep, hv, if_true]
  refine ⟨hs, ?_, ?_, serveMCP_next env req rest s s hs⟩
  · simp [written, hs]
  · simp [sent, hs]

/-- C19, on an `exit` frame with an identifier and no version tag: the loop
goes on. -/
theorem untagged_frame_is_skipped_witness :
    untaggedExit.JSONRPC = "" ∧
      (serveStep quietEnv untaggedExit start = (.next, start) ∧
        written quietEnv untaggedExit start = [] ∧
        sent quietEnv untaggedExit start = [] ∧
        serveMCP quietEnv (.frame untaggedExit :: [.frame shutdownRequest]) start =
          serveMCP quietEnv [.frame shutdownRequest] start) :=
  ⟨rfl, untagged_frame_is_skipped quietEnv untaggedExit start [.frame shutdownRequest] rfl⟩

/-! ## The claims on the shape of responses and on argument coercion -/

/-- C15: every response the server builds has the version tag `2.0` and exactly
one of result and error: a response returned by `handleMCPRequest` has a
result and no error object, the envelope `serveMCP` builds for a handler error
has an error object and no result, and so every envelope handed to the encoder
has one and not the other. -/
theorem response_result_xor_error {σ : Type} (env : Env σ) (req : rpcRequest) (s : Session σ) :
    (∀ resp, (handleMCPRequest env req s.world).1.1 = some resp →
      resp.JSONRPC = "2.0" ∧ resp.Result.isSome = true ∧ resp.Error = none) ∧
    (∀ err, (handleMCPRequest env req s.world).1.2 = some err → req.JSONRPC ≠ "" →
      req.ID ≠ none →
      ∃ e, written env req s = [{ JSONRPC := "2.0", ID := req.ID, Result := none, Error := some e }]) ∧
    (∀ resp ∈ written env req s, resp.JSONRPC = "2.0" ∧
      ((resp.Result.isSome = true ∧ resp.Error = none) ∨
        (resp.Result = none ∧ resp.Error.isSome = true))) := by
  have h1 : ∀ resp, (handleMCPRequest env req s.world).1.1 = some resp →
      resp.JSONRPC = "2.0" ∧ resp.Result.isSome = true ∧ resp.Error = none := by
    intro resp hr
    have ho := handleMCPRequest_outcome env req s.world
    cases hh : handleMCPRequest env req s.world with
    | mk p w' =>
      rw [hh] at ho hr
      cases ho with
      | protocolError e => simp at hr
      | result r w'' => simp at hr; subst hr; exact ⟨rfl, rfl, rfl⟩
      | silent => simp at hr
  refine ⟨h1, ?_, ?_⟩
  · intro err he hv hid
    have hid2 : req.ID.isNone = false := by
      cases h : req.ID with
      | none => exact absurd h hid
      | some _ => rfl
    simp only [written, serveStep, if_neg hv, he, hid2, Bool.false_eq_true, if_false]
    rw [writeResponse_out]
    exact ⟨_, List.drop_left _ _⟩
  · intro resp h
    simp only [written, serveStep] at h
    split at h
    · simp at h
    · split at h
      · split at h
        · simp at h
        · rw [writeResponse_out] at h
          simp at h
          subst h
          exact ⟨rfl, Or.inr ⟨rfl, rfl⟩⟩
      · split at h
        · simp at h
        · rw [writeResponse_out] at h
          simp at h
          subst h
          rename_i hr
          obtain ⟨a, b, c⟩ := h1 _ hr
          exact ⟨a, Or.inl ⟨b, c⟩⟩

/-- C15, on the `shutdown` request (a result, no error) and on the request for
an unknown method (an error, no result). -/
theorem response_result_xor_error_witness :
    (rpcResult (some "7") (.object []) ∈ written quietEnv shutdownRequest start ∧
      ((rpcResult (some "7") (.object [])).JSONRPC = "2.0" ∧
        (((rpcResult (some "7") (.object [])).Result.isSome = true ∧
            (rpcResult (some "7") (.object [])).Error = none) ∨
          ((rpcResult (some "7") (.object [])).Result = none ∧
            (rpcResult (some "7") (.object [])).Error.isSome = true)))) ∧
    ((handleMCPRequest quietEnv frobnicate start.world).1.2 =
        some (.rpc (methodNotFoundError "method not found: frobnicate")) ∧
      ∃ e, written quietEnv frobnicate start =
        [{ JSONRPC := "2.0", ID := frobnicate.ID, Result := none, Error := some e }]) :=
  have hm : rpcResult (some "7") (.object []) ∈ written quietEnv shutdownRequest start := by
    simp [written, serveStep, handleMCPRequest, shutdownRequest, writeResponse, start, quietEnv]
  ⟨⟨hm, (response_result_xor_error quietEnv shutdownRequest start).2.2 _ hm⟩,
    ⟨rfl, (response_result_xor_error quietEnv frobnicate start).2.1 _ rfl (by decide)
      (by simp [frobnicate])⟩⟩

/-- C20: `getStringArg` returns the empty string for a missing key and for a
nil value, a string value itself, unchanged, the literal of a `json.Number`,
and the rendering `fmt.Sprint` gives for every other value. -/
theorem getStringArg_cases {σ : Type} (env : Env σ) (args : GoMap) (key : String) :
    (mapGet args key = none → getStringArg env args key = "") ∧
    (mapGet args key = some .nil → getStringArg env args key = "") ∧
    (∀ v, mapGet args key = some (.string v) → getStringArg env args key = v) ∧
    (∀ lit, mapGet args key = some (.number lit) → getStringArg env args key = lit) ∧
    (∀ v, mapGet args key = some v → v ≠ .nil → (∀ str, v ≠ .string str) →
      (∀ lit, v ≠ .number lit) → getStringArg env args key = env.Sprint v) := by
  refine ⟨?_, ?_, ?_, ?_, ?_⟩
  · intro h; simp only [getStringArg, h]
  · intro h; simp only [getStringArg, h]
  · intro v h; simp only [getStringArg, h]
  · intro lit h; simp only [getStringArg, h]
  · intro v h h1 h2 h3
    simp only [getStringArg, h]

/-- C20, on a map that holds a string with surrounding blanks, a null, a
number token and a boolean. -/
theorem getStringArg_cases_witness :
    (mapGet sampleArgs "missing" = none ∧ getStringArg quietEnv sampleArgs "missing" = "") ∧
    (mapGet sampleArgs "n" = some .nil ∧ getStringArg quietEnv sampleArgs "n" = "") ∧
    (mapGet sampleArgs "s" = some (.string " a ") ∧ getStringArg quietEnv sampleArgs "s" = " a ") ∧
    (mapGet sampleArgs "t" = some (.number "9007199254740993") ∧
      getStringArg quietEnv sampleArgs "t" = "9007199254740993") ∧
    (mapGet sampleArgs "b" = some (.bool true) ∧
      getStringArg quietEnv sampleArgs "b" = quietEnv.Sprint (.bool true)) :=
  ⟨⟨rfl, (getStringArg_cases quietEnv sampleArgs "missing").1 rfl⟩,
    ⟨rfl, (getStringArg_cases quietEnv sampleArgs "n").2.1 rfl⟩,
    ⟨rfl, (getStringArg_cases quietEnv sampleArgs "s").2.2.1 _ rfl⟩,
    ⟨rfl, (getStringArg_cases quietEnv sampleArgs "t").2.2.2.1 _ rfl⟩,
    ⟨rfl, (getStringArg_cases quietEnv sampleArgs "b").2.2.2.2 _ rfl (by simp) (by simp)
      (by simp)⟩⟩

/-! ## The claims on granularity and window resolution -/

/-- C14: `resolveGranularity` fails exactly when the fetch of the source
configuration fails, with the error of the fetch; when the fetch succeeds it
returns the default when it is not empty, else `1h` when the available values
contain it, else `1d` when they contain it, else the first available value,
else the literal `1h`. -/
theorem resolveGranularity_fallback {σ : Type} (env : Env σ) (w : World σ) :
    (∀ err, (env.GetSourceConfig w.st).1 = .error err →
      (resolveGranularity env w).1 = .error err) ∧
    (∀ response, (env.GetSourceConfig w.st).1 = .ok response →
      (resolveGranularity env w).1 = .ok (fallbackGranularity response.Data)) := by
  constructor
  · intro err h
    simp only [resolveGranularity, h]
  · intro response h
    simp only [resolveGranularity, h, fallbackGranularity]
    by_cases hd : response.Data.DefaultGranularity = ""
    · simp only [hd, ne_eq, not_true_eq_false, if_false]
      by_cases h1 : "1h" ∈ response.Data.AvailableGranularities
      · have : (response.Data.AvailableGranularities.any fun value => decide (value = "1h")) = true := by
          rw [List.any_eq_true]; exact ⟨_, h1, by simp⟩
        simp [List.find?, this, h1]
      · have n1 : (response.Data.AvailableGranularities.any fun value => decide (value = "1h")) = false := by
          rw [List.any_eq_false]; intro x hx; simp; intro hx1; exact h1 (hx1 ▸ hx)
        by_cases h2 : "1d" ∈ response.Data.AvailableGranularities
        · have : (response.Data.AvailableGranularities.any fun value => decide (value = "1d")) = true := by
            rw [List.any_eq_true]; exact ⟨_, h2, by simp⟩
          simp [List.find?, this, n1, h1, h2]
        · have n2 : (response.Data.AvailableGranularities.any fun value => decide (value = "1d")) = false := by
            rw [List.any_eq_false]; intro x hx; simp; intro hx1; exact h2 (hx1 ▸ hx)
          simp only [List.find?, n1, n2, h1, h2, if_false]
          cases response.Data.AvailableGranularities <;> rfl
    · simp [hd]

/-- C14, on a configuration without a default that advertises `15m` and `1d`:
the granularity is `1d`. -/
theorem resolveGranularity_fallback_witness :
    (configEnv.GetSourceConfig start.world.st).1 = .ok sampleConfig ∧
      (resolveGranularity configEnv start.world).1 = .ok "1d" :=
  ⟨rfl, (resolveGranularity_fallback configEnv start.world).2 sampleConfig rfl⟩

/-- C13: with both arguments blank after trimming `resolveTimeRange` reads the
clock once and succeeds with the instant 24 hours before it and the instant
itself, each formatted as RFC3339; with exactly one blank it fails; with none
blank it fails exactly when `validateTimestamp` rejects one of the trimmed
values, and on success returns the trimmed values as they are. -/
theorem resolveTimeRange_cases {σ : Type} (env : Env σ) (from_ to_ : String) (w : World σ) :
    (trimSpace from_ = "" → trimSpace to_ = "" →
      resolveTimeRange env from_ to_ w =
        (.ok (env.FormatRFC3339 ((env.Now w.st).1 - 24 * 3600 * 1000000000),
            env.FormatRFC3339 (env.Now w.st).1),
          { w with st := (env.Now w.st).2 })) ∧
    ((trimSpace from_ = "" ∧ trimSpace to_ ≠ "") ∨ (trimSpace from_ ≠ "" ∧ trimSpace to_ = "") →
      ∃ err, resolveTimeRange env from_ to_ w = (.error err, w)) ∧
    (trimSpace from_ ≠ "" → trimSpace to_ ≠ "" →
      ((validateTimestamp env "from" (trimSpace from_)).isSome = true ∨
          (validateTimestamp env "to" (trimSpace to_)).isSome = true →
        ∃ err, resolveTimeRange env from_ to_ w = (.error err, w)) ∧
      (¬((validateTimestamp env "from" (trimSpace from_)).isSome = true ∨
          (validateTimestamp env "to" (trimSpace to_)).isSome = true) →
        resolveTimeRange env from_ to_ w = (.ok (trimSpace from_, trimSpace to_), w))) := by
  refine ⟨?_, ?_, ?_⟩
  · intro hf ht
    simp only [resolveTimeRange, hf, ht, and_self, if_true]
    rfl
  · intro h
    rcases h with ⟨hf, ht⟩ | ⟨hf, ht⟩
    · simp only [resolveTimeRange, hf, ht, and_false, if_false, true_or, if_true]
      exact ⟨_, rfl⟩
    · simp only [resolveTimeRange, hf, ht, false_and, if_false, or_true, if_true]
      exact ⟨_, rfl⟩
  · intro hf ht
    have hne : ¬(trimSpace from_ = "" ∧ trimSpace to_ = "") := fun h => hf h.1
    have hno : ¬(trimSpace from_ = "" ∨ trimSpace to_ = "") := fun h => h.elim hf ht
    constructor
    · intro h
      simp only [resolveTimeRange, if_neg hne, if_neg hno]
      cases h1 : validateTimestamp env "from" (trimSpace from_) with
      | some err => exact ⟨_, rfl⟩
      | none =>
        cases h2 : validateTimestamp env "to" (trimSpace to_) with
        | some err => exact ⟨_, rfl⟩
        | none => rw [h1, h2] at h; simp at h
    · intro h
      simp only [resolveTimeRange, if_neg hne, if_neg hno]
      cases h1 : validateTimestamp env "from" (trimSpace from_) with
      | some err => rw [h1] at h; simp at h
      | none =>
        cases h2 : validateTimestamp env "to" (trimSpace to_) with
        | some err => rw [h2] at h; simp at h
        | none => rfl

/-- C13, on two blank arguments, on a blank and a timestamp, and on two
timestamps with blanks around them. -/
theorem resolveTimeRange_cases_witness :
    ((trimSpace "  " = "" ∧ trimSpace "" = "") ∧
      resolveTimeRange strictEnv "  " "" start.world =
        (.ok ("1969-12-31T00:00:00Z", "1970-01-01T00:00:00Z"), start.world)) ∧
    ((trimSpace "" = "" ∧ trimSpace "2024-01-02T15:04:05Z" ≠ "") ∧
      ∃ err, resolveTimeRange strictEnv "" "2024-01-02T15:04:05Z" start.world =
        (.error err, start.world)) ∧
    ((trimSpace " 2024-01-02T15:04:05Z" ≠ "" ∧ trimSpace "2024-01-02T15:04:05Z " ≠ "" ∧
        ¬((validateTimestamp strictEnv "from" (trimSpace " 2024-01-02T15:04:05Z")).isSome = true ∨
          (validateTimestamp strictEnv "to" (trimSpace "2024-01-02T15:04:05Z ")).isSome = true)) ∧
      resolveTimeRange strictEnv " 2024-01-02T15:04:05Z" "2024-01-02T15:04:05Z " start.world =
        (.ok ("2024-01-02T15:04:05Z", "2024-01-02T15:04:05Z"), start.world)) :=
  ⟨⟨⟨by decide, by decide⟩,
      (resolveTimeRange_cases strictEnv "  " "" start.world).1 (by decide) (by decide)⟩,
    ⟨⟨by decide, by decide⟩,
      (resolveTimeRange_cases strictEnv "" "2024-01-02T15:04:05Z" start.world).2.1
        (Or.inl ⟨by decide, by decide⟩)⟩,
    ⟨⟨by decide, by decide, by decide⟩,
      ((resolveTimeRange_cases strictEnv " 2024-01-02T15:04:05Z" "2024-01-02T15:04:05Z "
        start.world).2.2 (by decide) (by decide)).2 (by decide)⟩⟩

/-! ## The claims on the catalogs and on the tools -/

/-- C16: the tool catalog holds exactly seven tools, with pairwise distinct
names, `list_metrics`, `fetch_series`, `aggregate_series`, `format_timeline`,
`format_category`, `write_metric` and `list_transponders`; `executeTool` ends
in its `unknown tool: <name>` failure, without touching the world, for every
name outside this set, and runs the payload builder of the tool for each name
in it; the resource catalog holds exactly the four descriptors of
`trifle://source`, `trifle://metrics`, `trifle://metrics/{key}` and
`trifle://transponders`; and the result `handleMCPRequest` returns for
`tools/list` holds the tool catalog, the one for `resources/list` the
resource catalog, each entry under its own name or URI. -/
theorem catalogs_and_dispatch {σ : Type} (env : Env σ) (name : String) (args : GoMap)
    (w : World σ) :
    toolDefinitions.map (fun d => d.Name) = toolNames ∧
    toolDefinitions.length = 7 ∧
    (toolDefinitions.map fun d => d.Name).Nodup ∧
    (name ∉ toolNames → executeTool env name args w = (.error ("unknown tool: " ++ name), w)) ∧
    (executeTool env "list_metrics" args w = toolOutcome env (listMetricsPayload env args w) ∧
      executeTool env "fetch_series" args w = toolOutcome env (fetchSeriesPayload env args w) ∧
      executeTool env "aggregate_series" args w =
        toolOutcome env (queryPayload env "aggregate" args w) ∧
      executeTool env "format_timeline" args w =
        toolOutcome env (queryPayload env "timeline" args w) ∧
      executeTool env "format_category" args w =
        toolOutcome env (queryPayload env "category" args w) ∧
      executeTool env "write_metric" args w = toolOutcome env (writeMetricPayload env args w) ∧
      executeTool env "list_transponders" args w =
        toolOutcome env (listTranspondersPayload env w)) ∧
    resourceList.map (fun d => d.URI) =
      ["trifle://source", "trifle://metrics", "trifle://metrics/{key}", "trifle://transponders"] ∧
    resourceList.length = 4 ∧
    (∀ req : rpcRequest, req.Method = "tools/list" →
      handleMCPRequest env req w =
        ((some (rpcResult req.ID
          (.object [("tools", .slice (toolDefinitions.map toolDefinition.toValue))])), none), w)) ∧
    (∀ req : rpcRequest, req.Method = "resources/list" →
      handleMCPRequest env req w =
        ((some (rpcResult req.ID
          (.object [("resources", .slice (resourceList.map resourceDescriptor.toValue))])),
          none), w)) ∧
    (∀ d : toolDefinition, d.toValue =
      .struct [("name", .string d.Name), ("description", .string d.Description),
        ("inputSchema", .map d.InputSchema)]) ∧
    (∀ d : resourceDescriptor, d.toValue =
      .struct [("uri", .string d.URI), ("name", .string d.Name),
        ("description", .string d.Description), ("mimeType", .string d.MimeType)]) := by
  refine ⟨rfl, rfl, by decide, ?_, ⟨?_, ?_, ?_, ?_, ?_, ?_, ?_⟩, rfl, rfl, ?_, ?_,
    fun _ => rfl, fun _ => rfl⟩
  · intro h
    simp only [toolNames, List.mem_cons, List.mem_singleton, not_or, List.not_mem_nil,
      not_false_eq_true, and_true] at h
    obtain ⟨h1, h2, h3, h4, h5, h6, h7⟩ := h
    unfold executeTool
    rw [if_neg h1, if_neg h2, if_neg h3, if_neg h4, if_neg h5, if_neg h6, if_neg h7]
  iterate 7 simp [executeTool]
  · intro req hm
    unfold handleMCPRequest
    simp [hm]
  · intro req hm
    unfold handleMCPRequest
    simp [hm]

/-- C16, on the name `no_such_tool`, which the catalog does not hold, and on a
`tools/list` and a `resources/list` request. -/
theorem catalogs_and_dispatch_witness :
    ("no_such_tool" ∉ toolNames ∧
      executeTool quietEnv "no_such_tool" [] start.world =
        (.error "unknown tool: no_such_tool", start.world)) ∧
    (toolsListNotification.Method = "tools/list" ∧
      handleMCPRequest quietEnv toolsListNotification start.world =
        ((some (rpcResult none
          (.object [("tools", .slice (toolDefinitions.map toolDefinition.toValue))])), none),
          start.world)) ∧
    (resourcesListRequest.Method = "resources/list" ∧
      handleMCPRequest quietEnv resourcesListRequest start.world =
        ((some (rpcResult (some "10")
          (.object [("resources", .slice (resourceList.map resourceDescriptor.toValue))])),
          none), start.world)) :=
  ⟨⟨by decide,
      (catalogs_and_dispatch quietEnv "no_such_tool" [] start.world).2.2.2.1 (by decide)⟩,
    ⟨rfl, (catalogs_and_dispatch quietEnv "no_such_tool" [] start.world).2.2.2.2.2.2.2.1
      toolsListNotification rfl⟩,
    ⟨rfl, (catalogs_and_dispatch quietEnv "no_such_tool" [] start.world).2.2.2.2.2.2.2.2.1
      resourcesListRequest rfl⟩⟩

/-! ## The claims on the `initialize` method -/

theorem handleMCPRequest_init {σ : Type} (env : Env σ) (req : rpcRequest) (w : World σ)
    (hm : req.Method = "initialize") :
    handleMCPRequest env req w = handleInitialize req w := by
  unfold handleMCPRequest
  rw [if_pos hm]

theorem decodeInitializeFields_other (kvs : List (String × Json)) :
    ∀ (p q : initializeParams),
      (∀ kv ∈ kvs, matchesField kv.1 "protocolVersion" = false) →
      decodeInitializeFields kvs p = some q → q.ProtocolVersion = p.ProtocolVersion := by
  induction kvs with
  | nil =>
    intro p q _ h
    simp only [decodeInitializeFields, Option.some.injEq] at h
    rw [h]
  | cons kv rest ih =>
    intro p q hk h
    obtain ⟨k, v⟩ := kv
    have hk0 : matchesField k "protocolVersion" = false := hk (k, v) (List.mem_cons_self _ _)
    have hrest : ∀ kv ∈ rest, matchesField kv.1 "protocolVersion" = false :=
      fun kv hkv => hk kv (List.mem_cons_of_mem _ hkv)
    simp only [decodeInitializeFields, hk0, Bool.false_eq_true, if_false] at h
    split at h
    · split at h
      · have := ih _ q hrest h
        exact this
      · simp at h
    · split at h
      · split at h
        · have := ih _ q hrest h
          exact this
        · simp at h
      · exact ih _ q hrest h

/-- C17 fails as stated: the params `{"protocolVersion": ""}` get the default
version, not the empty string, and params that carry the version `X` beside a
`capabilities` that is not an object get an invalid-params error. -/
theorem initialize_echo_fails :
    handleMCPRequest quietEnv (initializeRequest (some (.obj [("protocolVersion", .str "")])))
        start.world =
      ((some (rpcResult (some "1") (.object (initializeResult "2024-11-05"))), none),
        start.world) ∧
    handleMCPRequest quietEnv
        (initializeRequest (some (.obj [("protocolVersion", .str "X"), ("capabilities", .num "5")])))
        start.world =
      ((none, some (.rpc (invalidParamsError "invalid initialize params"))), start.world) :=
  ⟨rfl, rfl⟩

/-- C17, amended: an `initialize` request whose params are absent, or decode
with an empty protocol version, gets the result with the default version
`2024-11-05`; one whose params decode with a non-empty version `X` gets the
result with `X`; params `{"protocolVersion": X}` decode with the version `X`,
and params that decode and hold no `protocolVersion` member decode with the
empty version; the result advertises the tools and resources capabilities
with `listChanged` false and the server name `trifle-cli`; params that do not
decode get the invalid-params error, of code -32602, and no result. -/
theorem initialize_protocol_version {σ : Type} (env : Env σ) (req : rpcRequest) (w : World σ)
    (hm : req.Method = "initialize") :
    (req.Params = none ∨
        (∃ raw p, req.Params = some raw ∧ unmarshalInitializeParams raw = some p ∧
          p.ProtocolVersion = "") →
      handleMCPRequest env req w =
        ((some (rpcResult req.ID (.object (initializeResult "2024-11-05"))), none), w)) ∧
    (∀ raw p, req.Params = some raw → unmarshalInitializeParams raw = some p →
      p.ProtocolVersion ≠ "" →
      handleMCPRequest env req w =
        ((some (rpcResult req.ID (.object (initializeResult p.ProtocolVersion))), none), w)) ∧
    (∀ X, unmarshalInitializeParams (.obj [("protocolVersion", .str X)]) =
      some { ProtocolVersion := X, Capabilities := none, ClientInfo := none }) ∧
    (∀ kvs p, (∀ kv ∈ kvs, matchesField kv.1 "protocolVersion" = false) →
      unmarshalInitializeParams (.obj kvs) = some p → p.ProtocolVersion = "") ∧
    (∀ protocol, initializeResult protocol =
      [("protocolVersion", .string protocol),
        ("capabilities", .map [("tools", .map [("listChanged", .bool false)]),
          ("resources", .map [("listChanged", .bool false)])]),
        ("serverInfo", .map [("name", .string "trifle-cli"), ("version", .string "0.1.0-dev")])]) ∧
    (∀ raw, req.Params = some raw → unmarshalInitializeParams raw = none →
      handleMCPRequest env req w =
        ((none, some (.rpc (rpcError.mk (-32602) "invalid initialize params" none))), w)) := by
  refine ⟨?_, ?_, ?_, ?_, fun _ => rfl, ?_⟩
  rotate_right
  · intro raw hp hu
    rw [handleMCPRequest_init env req w hm]
    simp only [handleInitialize, hp, hu]
    rfl
  · intro h
    rw [handleMCPRequest_init env req w hm]
    rcases h with h | ⟨raw, p, hp, hu, hv⟩
    · simp only [handleInitialize, h]
      rfl
    · simp only [handleInitialize, hp, hu, hv, if_true]
      rfl
  · intro raw p hp hu hv
    rw [handleMCPRequest_init env req w hm]
    simp only [handleInitialize, hp, hu, if_neg hv]
    rfl
  · intro X
    have hk : matchesField "protocolVersion" "protocolVersion" = true := by decide
    simp only [unmarshalInitializeParams, decodeInitializeFields, hk, if_true, decodeStringField]
  · intro kvs p hk hu
    simp only [unmarshalInitializeParams] at hu
    exact decodeInitializeFields_other kvs _ p hk hu

/-- C17 amended, on the params `{"protocolVersion": "X"}`, on absent params and
on params that do not decode. -/
theorem initialize_protocol_version_witness :
    ((initializeRequest (some (.obj [("protocolVersion", .str "X")]))).Method = "initialize" ∧
      unmarshalInitializeParams (.obj [("protocolVersion", .str "X")]) =
        some { ProtocolVersion := "X", Capabilities := none, ClientInfo := none } ∧
      handleMCPRequest quietEnv (initializeRequest (some (.obj [("protocolVersion", .str "X")])))
          start.world =
        ((some (rpcResult (some "1") (.object (initializeResult "X"))), none),
          start.world)) ∧
    ((initializeRequest none).Params = none ∧
      handleMCPRequest quietEnv (initializeRequest none) start.world =
        ((some (rpcResult (some "1") (.object (initializeResult "2024-11-05"))), none),
          start.world)) ∧
    (unmarshalInitializeParams
        (.obj [("protocolVersion", .str "X"), ("capabilities", .num "5")]) = none ∧
      handleMCPRequest quietEnv badInitializeRequest start.world =
        ((none, some (.rpc (rpcError.mk (-32602) "invalid initialize params" none))),
          start.world)) :=
  ⟨⟨rfl, rfl,
      (initialize_protocol_version quietEnv
        (initializeRequest (some (.obj [("protocolVersion", .str "X")]))) start.world rfl).2.1
        _ { ProtocolVersion := "X", Capabilities := none, ClientInfo := none } rfl rfl
        (by decide)⟩,
    ⟨rfl, (initialize_protocol_version quietEnv (initializeRequest none) start.world rfl).1
      (Or.inl rfl)⟩,
    ⟨rfl, (initialize_protocol_version quietEnv badInitializeRequest start.world rfl).2.2.2.2.2
      _ rfl rfl⟩⟩

/-! ## The claims on the required arguments of the query tools -/

theorem resolveTimeRange_calls {σ : Type} (env : Env σ) (from_ to_ : String) (w : World σ) :
    (resolveTimeRange env from_ to_ w).2.calls = w.calls := by
  simp only [resolveTimeRange]
  split
  · rfl
  · split
    · rfl
    · split
      · rfl
      · split <;> rfl

theorem argGranularity_calls {σ : Type} (env : Env σ) (args : GoMap) (w : World σ) :
    (argGranularity env args w).2.calls = w.calls ∨
      (argGranularity env args w).2.calls = w.calls ++ [BackendCall.GetSource] := by
  simp only [argGranularity]
  split
  · right
    simp only [resolveGranularity]
    split
    · rfl
    · split
      · rfl
      · split
        · rfl
        · split <;> rfl
  · left; rfl

theorem executeTool_query {σ : Type} (env : Env σ) (name mode : String) (args : GoMap)
    (w : World σ) (h : (name, mode) ∈ queryTools) :
    executeTool env name args w = toolOutcome env (queryPayload env mode args w) := by
  simp only [queryTools, List.mem_cons, Prod.mk.injEq, List.mem_singleton, List.not_mem_nil,
    or_false] at h
  rcases h with ⟨rfl, rfl⟩ | ⟨rfl, rfl⟩ | ⟨rfl, rfl⟩ <;> simp [executeTool]

/-- A blank `aggregator` makes `queryPayload` fail in the mode `aggregate`,
after at most a fetch of the source configuration. -/
theorem queryPayload_blank_aggregator {σ : Type} (env : Env σ) (args : GoMap) (w : World σ)
    (h : trimSpace (getStringArg env args "aggregator") = "") :
    ∃ err w', queryPayload env "aggregate" args w = (.error err, w') ∧
      (w'.calls = w.calls ∨ w'.calls = w.calls ++ [BackendCall.GetSource]) := by
  simp only [queryPayload]
  split
  · exact ⟨_, _, rfl, Or.inl rfl⟩
  · split
    · exact ⟨_, _, rfl, Or.inl rfl⟩
    · split
      · exact ⟨_, _, rfl, Or.inl (resolveTimeRange_calls env _ _ w)⟩
      · have hg := argGranularity_calls env args
          (resolveTimeRange env (getStringArg env args "from") (getStringArg env args "to") w).2
        rw [resolveTimeRange_calls] at hg
        split
        · exact ⟨_, _, rfl, hg⟩
        · simp only [h, and_self, if_true]
          exact ⟨_, _, rfl, hg⟩

/-- C12: for `aggregate_series`, `format_timeline` and `format_category`, a
`key` that is missing, null or blank after trimming makes the call fail with
`key is required`; otherwise a `value_path` that is missing, null or blank
makes it fail with `value_path is required`; and `aggregate_series` with a
blank `aggregator` fails whatever the other arguments. In the first two cases
the world is left as it was, in the third at most the source configuration is
fetched: no query goes to the backend. The failure comes back from
`tools/call` as a success envelope whose tool result has `isError` true and
the message as its one text item. -/
theorem required_arguments {σ : Type} (env : Env σ) (req : rpcRequest) (raw : Json)
    (params : toolCallParams) (mode : String) (w : World σ)
    (hm : req.Method = "tools/call") (hp : req.Params = some raw)
    (hu : unmarshalToolCallParams raw = some params)
    (ht : (params.Name, mode) ∈ queryTools) :
    (∀ key, mapGet (params.Arguments.getD []) key = none ∨
        mapGet (params.Arguments.getD []) key = some .nil →
      trimSpace (getStringArg env (params.Arguments.getD []) key) = "") ∧
    (trimSpace (getStringArg env (params.Arguments.getD []) "key") = "" →
      handleMCPRequest env req w =
        ((some (rpcResult req.ID (.tool
          { Content := [{ Type_ := "text", Text := "key is required" }], IsError := true })),
          none), w)) ∧
    (trimSpace (getStringArg env (params.Arguments.getD []) "key") ≠ "" →
      trimSpace (getStringArg env (params.Arguments.getD []) "value_path") = "" →
      handleMCPRequest env req w =
        ((some (rpcResult req.ID (.tool
          { Content := [{ Type_ := "text", Text := "value_path is required" }],
            IsError := true })),
          none), w)) ∧
    (params.Name = "aggregate_series" →
      trimSpace (getStringArg env (params.Arguments.getD []) "aggregator") = "" →
      ∃ err w', handleMCPRequest env req w =
          ((some (rpcResult req.ID (.tool
            { Content := [{ Type_ := "text", Text := err }], IsError := true })),
            none), w') ∧
        (w'.calls = w.calls ∨ w'.calls = w.calls ++ [BackendCall.GetSource])) := by
  have hn : params.Name ≠ "" := by
    intro h
    rw [h] at ht
    simp [queryTools] at ht
  have hh : handleMCPRequest env req w = handleToolCall env req w := by
    unfold handleMCPRequest
    simp [hm]
  have hx := executeTool_query env params.Name mode (params.Arguments.getD []) w ht
  refine ⟨?_, ?_, ?_, ?_⟩
  · intro key h
    rcases h with h | h <;> simp only [getStringArg, h] <;> decide
  · intro hk
    rw [hh]
    simp only [handleToolCall, hp, hu, if_neg hn, hx, toolOutcome, queryPayload, hk, if_true]
    rfl
  · intro hk hv
    rw [hh]
    simp only [handleToolCall, hp, hu, if_neg hn, hx, toolOutcome, queryPayload, if_neg hk, hv,
      if_true]
    rfl
  · intro ha hb
    have hmode : mode = "aggregate" := by
      rw [ha] at ht
      simp [queryTools] at ht
      exact ht
    subst hmode
    obtain ⟨err, w', hq, hc⟩ := queryPayload_blank_aggregator env (params.Arguments.getD []) w hb
    refine ⟨err, w', ?_, hc⟩
    rw [hh]
    simp only [handleToolCall, hp, hu, if_neg hn, hx, toolOutcome, hq]
    rfl

/-- C12, on `aggregate_series` with the arguments `{"key":"k"}`: the envelope
holds a tool result with `isError` true and the text `value_path is
required`. -/
theorem required_arguments_witness :
    (aggregateKeyOnly.Method = "tools/call" ∧
      unmarshalToolCallParams (.obj [("name", .str "aggregate_series"),
          ("arguments", .obj [("key", .str "k")])]) =
        some { Name := "aggregate_series", Arguments := some [("key", .string "k")] } ∧
      ("aggregate_series", "aggregate") ∈ queryTools ∧
      trimSpace (getStringArg quietEnv [("key", .string "k")] "key") ≠ "" ∧
      trimSpace (getStringArg quietEnv [("key", .string "k")] "value_path") = "") ∧
    handleMCPRequest quietEnv aggregateKeyOnly start.world =
      ((some (rpcResult aggregateKeyOnly.ID (.tool
        { Content := [{ Type_ := "text", Text := "value_path is required" }],
          IsError := true })),
        none), start.world) :=
  ⟨⟨rfl, rfl, by decide, by decide, by decide⟩,
    (required_arguments quietEnv aggregateKeyOnly _
      { Name := "aggregate_series", Arguments := some [("key", .string "k")] } "aggregate"
      start.world rfl rfl rfl (by decide)).2.2.1 (by decide) (by decide)⟩

/-! ## The claim on `validateGranularity` -/

theorem unit_head_not_digit {u : String} (h : u ∈ granularityUnits) :
    u.data.takeWhile Char.isDigit = [] ∧ u.data.dropWhile Char.isDigit = u.data := by
  simp only [granularityUnits, List.mem_cons, List.mem_singleton, List.not_mem_nil, or_false] at h
  rcases h with rfl | rfl | rfl | rfl | rfl | rfl | rfl | rfl <;> decide

theorem granularityPattern_iff (s : String) : granularityPattern s = true ↔ IsGranularity s := by
  constructor
  · intro h
    simp only [granularityPattern, Bool.and_eq_true, Bool.not_eq_true', List.any_eq_true,
      decide_eq_true_eq] at h
    obtain ⟨hd, u, hu, hrest⟩ := h
    refine ⟨s.data.takeWhile Char.isDigit, u, ?_, ?_, hu, ?_⟩
    · intro h0
      rw [h0] at hd
      simp at hd
    · intro c hc
      exact List.mem_takeWhile_imp hc
    · rw [hrest, List.takeWhile_append_dropWhile]
  · rintro ⟨digits, u, hne, hd, hu, hs⟩
    obtain ⟨h1, h2⟩ := unit_head_not_digit hu
    have ht : s.data.takeWhile Char.isDigit = digits := by
      rw [hs, List.takeWhile_append_of_pos hd, h1, List.append_nil]
    have hr : s.data.dropWhile Char.isDigit = u.data := by
      rw [hs, List.dropWhile_append_of_pos hd, h2]
    simp only [granularityPattern, Bool.and_eq_true, Bool.not_eq_true', List.any_eq_true,
      decide_eq_true_eq, ht, hr]
    refine ⟨?_, u, hu, rfl⟩
    cases digits with
    | nil => exact absurd rfl hne
    | cons _ _ => rfl

theorem digit_range {c : Char} (h : c.isDigit = true) : 48 ≤ c.toNat ∧ c.toNat ≤ 57 := by
  simp only [Char.isDigit, Bool.and_eq_true, decide_eq_true_eq] at h
  exact ⟨h.1, h.2⟩

theorem toLowerRune_digit (wide : Char → Char) {c : Char} (h : c.isDigit = true) :
    toLowerRune wide c = c := by
  obtain ⟨h1, h2⟩ := digit_range h
  have h3 : c.toNat < 128 := by omega
  have h4 : ¬(c.toNat ≥ 65 ∧ c.toNat ≤ 90) := by omega
  simp only [toLowerRune, h3, if_true, Char.toLower, h4, if_false]

theorem isSpace_digit {c : Char} (h : c.isDigit = true) : isSpace c = false := by
  obtain ⟨h1, h2⟩ := digit_range h
  simp only [isSpace, decide_eq_false_iff_not]
  omega

theorem toLower_unit (wide : Char → Char) {u : String} (h : u ∈ granularityUnits) :
    u.data.map (toLowerRune wide) = u.data := by
  simp only [granularityUnits, List.mem_cons, List.mem_singleton, List.not_mem_nil, or_false] at h
  rcases h with rfl | rfl | rfl | rfl | rfl | rfl | rfl | rfl <;> rfl

theorem dropWhile_unit_reverse {u : String} (h : u ∈ granularityUnits) (l : List Char) :
    (u.data.reverse ++ l).dropWhile isSpace = u.data.reverse ++ l := by
  simp only [granularityUnits, List.mem_cons, List.mem_singleton, List.not_mem_nil, or_false] at h
  rcases h with rfl | rfl | rfl | rfl | rfl | rfl | rfl | rfl <;> rfl

/-- A string of the granularity form is left as it is by `strings.TrimSpace`
and by `strings.ToLower`. -/
theorem granularity_normal (wide : Char → Char) {s : String} (h : IsGranularity s) :
    toLower wide (trimSpace s) = s := by
  obtain ⟨digits, u, hne, hd, hu, hs⟩ := h
  have htrim : trimSpace s = s := by
    cases digits with
    | nil => exact absurd rfl hne
    | cons d ds =>
      have hsp : isSpace d = false := isSpace_digit (hd d (List.mem_cons_self _ _))
      have h1 : s.data.dropWhile isSpace = s.data := by
        rw [hs, List.cons_append, List.dropWhile_cons_of_neg (by simp [hsp])]
      simp only [trimSpace, h1]
      rw [hs, List.reverse_append, dropWhile_unit_reverse hu, ← List.reverse_append,
        List.reverse_reverse, ← hs]
  rw [htrim]
  simp only [toLower]
  have hm : s.data.map (toLowerRune wide) = s.data := by
    rw [hs, List.map_append, toLower_unit wide hu]
    congr 1
    conv_rhs => rw [← List.map_id digits]
    exact List.map_congr_left (fun c hc => toLowerRune_digit wide (hd c hc))
  rw [hm]

theorem validateGranularity_ok (wide : Char → Char) (v out : String) :
    validateGranularity wide v = .ok out ↔
      out = toLower wide (trimSpace v) ∧ IsGranularity (toLower wide (trimSpace v)) := by
  simp only [validateGranularity]
  by_cases h0 : toLower wide (trimSpace v) = ""
  · simp only [h0, if_true]
    constructor
    · intro h; cases h
    · rintro ⟨_, digits, u, hne, _, _, hs⟩
      cases digits with
      | nil => exact absurd rfl hne
      | cons _ _ => simp at hs
  · simp only [if_neg h0]
    by_cases hp : granularityPattern (toLower wide (trimSpace v)) = true
    · simp only [hp, Bool.not_true, Bool.false_eq_true, if_false, Except.ok.injEq]
      constructor
      · intro h; exact ⟨h.symm, (granularityPattern_iff _).1 hp⟩
      · intro h; exact h.1.symm
    · have hp' : granularityPattern (toLower wide (trimSpace v)) = false := by
        simpa using hp
      simp only [hp', Bool.not_false, if_true]
      constructor
      · intro h; cases h
      · rintro ⟨_, hg⟩
        exact absurd ((granularityPattern_iff _).2 hg) hp

/-- C21: `validateGranularity(v)` succeeds if and only if `v`, trimmed of
surrounding white space and then lowercased, is one or more ASCII digits
followed by exactly one of the units `s`, `m`, `h`, `d`, `w`, `mo`, `q`, `y`
and nothing else; on success it returns that trimmed lowercase string, and
`validateGranularity` on its own successful output returns the same string
again. -/
theorem validateGranularity_normalizes (wide : Char → Char) (v : String) :
    ((∃ out, validateGranularity wide v = .ok out) ↔
      IsGranularity (toLower wide (trimSpace v))) ∧
    (∀ out, validateGranularity wide v = .ok out →
      out = toLower wide (trimSpace v) ∧ validateGranularity wide out = .ok out) := by
  constructor
  · constructor
    · rintro ⟨out, h⟩
      exact ((validateGranularity_ok wide v out).1 h).2
    · intro h
      exact ⟨_, (validateGranularity_ok wide v _).2 ⟨rfl, h⟩⟩
  · intro out h
    obtain ⟨ho, hg⟩ := (validateGranularity_ok wide v out).1 h
    refine ⟨ho, ?_⟩
    rw [← ho] at hg
    rw [validateGranularity_ok, granularity_normal wide hg]
    exact ⟨rfl, hg⟩

/-- C21, on the value ` 15M `: it is accepted as `15m`, which is accepted as
itself. -/
theorem validateGranularity_normalizes_witness :
    validateGranularity id " 15M " = .ok "15m" ∧
      ("15m" = toLower id (trimSpace " 15M ") ∧ validateGranularity id "15m" = .ok "15m") :=
  ⟨rfl, (validateGranularity_normalizes id " 15M ").2 "15m" rfl⟩

/-! ## The identifier on the output -/

theorem compact_plain (l : List Char) :
    ∀ (inString escaped : Bool), (∀ c ∈ l, htmlEscape c = none) →
      spaceOutside inString escaped l = false → compact inString escaped l = l := by
  induction l with
  | nil => intro _ _ _ _; rfl
  | cons c rest ih =>
    intro inString escaped hh hs
    simp only [spaceOutside, Bool.or_eq_false_iff] at hs
    have hc : htmlEscape c = none := hh c (List.mem_cons_self _ _)
    simp only [compact, hc, hs.1, Bool.false_eq_true, if_false]
    rw [ih _ _ (fun c' hc' => hh c' (List.mem_cons_of_mem _ hc')) hs.2]
    rfl

theorem spaceOutside_no_space (l : List Char) :
    ∀ (inString escaped : Bool), (∀ c ∈ l, isJSONSpace c = false) →
      spaceOutside inString escaped l = false := by
  induction l with
  | nil => intro _ _ _; rfl
  | cons c rest ih =>
    intro inString escaped h
    simp only [spaceOutside, h c (List.mem_cons_self _ _), Bool.and_false, Bool.false_or]
    exact ih _ _ (fun c' hc' => h c' (List.mem_cons_of_mem _ hc'))

theorem spaceOutside_body (body : List Char) (tail : List Char) :
    (∀ c ∈ body, c ≠ '"' ∧ c ≠ '\\') →
      spaceOutside true false (body ++ tail) = spaceOutside true false tail := by
  induction body with
  | nil => intro _; rfl
  | cons c rest ih =>
    intro h
    obtain ⟨h1, h2⟩ := h c (List.mem_cons_self _ _)
    simp only [List.cons_append, spaceOutside, scanNext, Bool.not_true, Bool.false_and,
      Bool.false_or, if_true, h1, h2, decide_False, Bool.not_false, Bool.or_true, Bool.and_false]
    exact ih (fun c' hc' => h c' (List.mem_cons_of_mem _ hc'))

theorem number_char_plain {c : Char}
    (h : c.isDigit = true ∨ c ∈ ['-', '+', '.', 'e', 'E']) :
    htmlEscape c = none ∧ isJSONSpace c = false := by
  rcases h with h | h
  · obtain ⟨h1, h2⟩ := digit_range h
    have e1 : c ≠ '<' := by intro hc; rw [hc] at h1 h2; revert h2; decide
    have e2 : c ≠ '>' := by intro hc; rw [hc] at h1 h2; revert h2; decide
    have e3 : c ≠ '&' := by intro hc; rw [hc] at h1 h2; revert h1; decide
    have e4 : c ≠ ' ' := by intro hc; rw [hc] at h1 h2; revert h1; decide
    have e5 : c ≠ '\t' := by intro hc; rw [hc] at h1 h2; revert h1; decide
    have e6 : c ≠ '\r' := by intro hc; rw [hc] at h1 h2; revert h1; decide
    have e7 : c ≠ '\n' := by intro hc; rw [hc] at h1 h2; revert h1; decide
    have e8 : c.toNat ≠ 0x2028 := by omega
    have e9 : c.toNat ≠ 0x2029 := by omega
    simp [htmlEscape, isJSONSpace, e1, e2, e3, e4, e5, e6, e7, e8, e9]
  · simp only [List.mem_cons, List.mem_singleton, List.not_mem_nil, or_false] at h
    rcases h with rfl | rfl | rfl | rfl | rfl <;> decide

/-- Every envelope of a pass carries, in its identifier field, the identifier
field of the request. -/
theorem written_id_field {σ : Type} (env : Env σ) (req : rpcRequest) (s : Session σ)
    (resp : rpcResponse) (h : resp ∈ written env req s) : resp.ID = req.ID := by
  simp only [written, serveStep] at h
  split at h
  · simp at h
  · split at h
    · split at h
      · simp at h
      · rw [writeResponse_out] at h
        simp at h
        subst h; rfl
    · split at h
      · simp at h
      · rw [writeResponse_out] at h
        simp at h
        subst h
        rename_i hr
        have ho := handleMCPRequest_outcome env req s.world
        cases hh : handleMCPRequest env req s.world with
        | mk p w' =>
          rw [hh] at ho hr
          cases ho with
          | protocolError e => simp at hr
          | result r w'' => simp at hr; subst hr; rfl
          | silent => simp at hr

/-- C1 fails as stated: the identifier `"a<b"` is written as `"a\u003cb"`, and
the identifier `[1, 2]` as `[1,2]`; the bytes on the output are not the bytes
of the request. -/
theorem written_id_bytes_differ :
    (written quietEnv htmlIdRequest start = [rpcResult (some "\"a<b\"") (.object [])] ∧
      wireID (rpcResult (some "\"a<b\"") (.object [])) = some "\"a\\u003cb\"") ∧
    (written quietEnv spacedIdRequest start = [rpcResult (some "[1, 2]") (.object [])] ∧
      wireID (rpcResult (some "[1, 2]") (.object [])) = some "[1,2]") :=
  ⟨⟨rfl, by decide⟩, ⟨rfl, by decide⟩⟩

/-- C1, amended: every envelope one pass of the loop hands to the encoder, the
success envelope of `handleMCPRequest` as well as the error envelope built in
`serveMCP`, holds in its identifier field the raw identifier of the request,
unchanged; the bytes the encoder writes for it are that text compacted and
HTML-escaped, and they are the bytes of the request whenever the identifier
holds none of `<`, `>`, `&`, U+2028, U+2029 and no white space outside string
literals: so for every numeric literal, and for every string literal without
a backslash and without the five characters. -/
theorem written_id_wire {σ : Type} (env : Env σ) (req : rpcRequest) (s : Session σ)
    (resp : rpcResponse) (h : resp ∈ written env req s) :
    resp.ID = req.ID ∧
    wireID resp = req.ID.map (fun raw => ⟨compact false false raw.data⟩) ∧
    (∀ raw, req.ID = some raw → (∀ c ∈ raw.data, htmlEscape c = none) →
      spaceOutside false false raw.data = false → wireID resp = some raw) ∧
    (∀ raw, req.ID = some raw →
      (∀ c ∈ raw.data, c.isDigit = true ∨ c ∈ ['-', '+', '.', 'e', 'E']) →
      wireID resp = some raw) ∧
    (∀ raw body, req.ID = some raw → raw.data = '"' :: body ++ ['"'] →
      (∀ c ∈ body, c ≠ '"' ∧ c ≠ '\\' ∧ htmlEscape c = none) → wireID resp = some raw) := by
  have hid : resp.ID = req.ID := written_id_field env req s resp h
  have hplain : ∀ raw, req.ID = some raw → (∀ c ∈ raw.data, htmlEscape c = none) →
      spaceOutside false false raw.data = false → wireID resp = some raw := by
    intro raw hr hh hs
    simp only [wireID, hid, hr, Option.map_some', compact_plain raw.data false false hh hs]
  refine ⟨hid, ?_, hplain, ?_, ?_⟩
  · simp only [wireID, hid]
  · intro raw hr hn
    exact hplain raw hr (fun c hc => (number_char_plain (hn c hc)).1)
      (spaceOutside_no_space _ _ _ (fun c hc => (number_char_plain (hn c hc)).2))
  · intro raw body hr hd hb
    apply hplain raw hr
    · intro c hc
      rw [hd] at hc
      simp only [List.mem_cons, List.mem_append, List.mem_singleton, List.not_mem_nil,
        or_false] at hc
      rcases hc with (rfl | hc) | rfl
      · decide
      · exact (hb c hc).2.2
      · decide
    · rw [hd]
      have e : spaceOutside false false ('"' :: body ++ ['"']) =
          spaceOutside true false (body ++ ['"']) := rfl
      have ht : spaceOutside true false ['"'] = false := by decide
      rw [e, spaceOutside_body body ['"'] (fun c hc => ⟨(hb c hc).1, (hb c hc).2.1⟩), ht]

/-- C1 amended, on the numeric identifier `7` and on the string identifier
`my id`: each is written with the bytes of the request. -/
theorem written_id_wire_witness :
    (rpcResult (some "7") (.object []) ∈ written quietEnv shutdownRequest start ∧
      shutdownRequest.ID = some "7" ∧
      (∀ c ∈ "7".data, c.isDigit = true ∨ c ∈ ['-', '+', '.', 'e', 'E']) ∧
      wireID (rpcResult (some "7") (.object [])) = some "7") ∧
    (rpcResult (some "\"my id\"") (.object []) ∈ written quietEnv stringIdRequest start ∧
      stringIdRequest.ID = some "\"my id\"" ∧
      wireID (rpcResult (some "\"my id\"") (.object [])) = some "\"my id\"") :=
  have h1 : rpcResult (some "7") (.object []) ∈ written quietEnv shutdownRequest start := by
    simp [written, serveStep, handleMCPRequest, shutdownRequest, writeResponse, start, quietEnv]
  have h2 : rpcResult (some "\"my id\"") (.object []) ∈
      written quietEnv stringIdRequest start := by
    simp [written, serveStep, handleMCPRequest, stringIdRequest, writeResponse, start, quietEnv]
  have hn : ∀ c ∈ "7".data, c.isDigit = true ∨ c ∈ ['-', '+', '.', 'e', 'E'] := by decide
  ⟨⟨h1, rfl, hn, (written_id_wire quietEnv shutdownRequest start _ h1).2.2.2.1 "7" rfl hn⟩,
    ⟨h2, rfl,
      (written_id_wire quietEnv stringIdRequest start _ h2).2.2.2.2 "\"my id\""
        ['m', 'y', ' ', 'i', 'd'] rfl rfl (by decide)⟩⟩

end Trifle
